import Mathlib

/-! VolzerCampus — client-side authentication guard (`site web/js/auth.js`)

A shallow embedding of the decision logic of `auth.js`: the e-mail validator, the
registration form validator, the lockout policy (`SecurityManager`), the analytics
recorder (`AuthAnalytics`) and the submit handlers of `AuthManager`.

Modelling conventions
* A JavaScript string is a Lean `String` (a sequence of Unicode scalar values); `.length`
  is `jsLength`, the number of UTF-16 code units, as in JavaScript.
* JavaScript numbers that hold integers (counters, epoch milliseconds) are `Int`; `NaN` is
  `none`.  The model is exact below 2^53.
* A method that can raise is modelled by a function returning the world reached together
  with a `Completion`: effects performed before a `throw` stay in the world.
-/

namespace VolzerCampus

/-! ## Strings -/

/-- The characters matched by `\s` in a JavaScript regular expression, which are also the
characters removed by `String.prototype.trim` and skipped by `parseInt`
(ECMAScript `WhiteSpace` and `LineTerminator`). -/
def isJSWhiteSpace (c : Char) : Bool :=
  let n := c.toNat
  n == 0x09 || n == 0x0A || n == 0x0B || n == 0x0C || n == 0x0D || n == 0x20 ||
  n == 0xA0 || n == 0x1680 || (0x2000 ≤ n && n ≤ 0x200A) || n == 0x2028 ||
  n == 0x2029 || n == 0x202F || n == 0x205F || n == 0x3000 || n == 0xFEFF

/-- Number of UTF-16 code units of one character. -/
def utf16Units (c : Char) : Nat := if c.toNat < 0x10000 then 1 else 2

/-- The `.length` of a JavaScript string: its number of UTF-16 code units. -/
def jsLength (s : String) : Nat := (s.toList.map utf16Units).sum

/-! ## Regular expressions

The fragment of JavaScript regular expressions used by `auth.js`, with a matcher by
derivatives.  `Regex.test` is `RegExp.prototype.test` for a pattern written between `^`
and `$` (no flags): the whole input has to match. -/

/-- Regular expressions over characters; `cls p` is a character class. -/
inductive Regex where
  | never : Regex
  | eps : Regex
  | cls (p : Char → Bool) : Regex
  | seq (r s : Regex) : Regex
  | alt (r s : Regex) : Regex
  | star (r : Regex) : Regex

namespace Regex

/-- The literal character `c`. -/
def chr (c : Char) : Regex := cls (fun d => d == c)

/-- The quantifier `+`: one or more repetitions. -/
def plus (r : Regex) : Regex := seq r (star r)

/-- Whether the expression matches the empty input. -/
def nullable : Regex → Bool
  | never => false
  | eps => true
  | cls _ => false
  | seq r s => r.nullable && s.nullable
  | alt r s => r.nullable || s.nullable
  | star _ => true

/-- The derivative of an expression by one character. -/
def deriv : Regex → Char → Regex
  | never, _ => never
  | eps, _ => never
  | cls p, c => if p c then eps else never
  | seq r s, c =>
      if r.nullable then alt (seq (r.deriv c) s) (s.deriv c) else seq (r.deriv c) s
  | alt r s, c => alt (r.deriv c) (s.deriv c)
  | star r, c => seq (r.deriv c) (star r)

/-- Whole-input matching. -/
def rmatch : Regex → List Char → Bool
  | r, [] => r.nullable
  | r, c :: cs => (r.deriv c).rmatch cs

/-- The method `test` of an anchored pattern `/^r$/`. -/
def test (r : Regex) (s : String) : Bool := r.rmatch s.toList

/-- Declarative meaning of an expression: the inputs it matches. -/
inductive Matches : Regex → List Char → Prop
  | eps : Matches eps []
  | cls (p : Char → Bool) (c : Char) : p c = true → Matches (cls p) [c]
  | seq {r s : Regex} {x y : List Char} :
      Matches r x → Matches s y → Matches (seq r s) (x ++ y)
  | altL {r s : Regex} {x : List Char} : Matches r x → Matches (alt r s) x
  | altR {r s : Regex} {x : List Char} : Matches s x → Matches (alt r s) x
  | starNil {r : Regex} : Matches (star r) []
  | starCons {r : Regex} {x y : List Char} :
      Matches r x → Matches (star r) y → Matches (star r) (x ++ y)

end Regex

/-! ## `AuthManager.isValidEmail` -/

/-- The class `[^\s@]`. -/
def notSpaceNorAt (c : Char) : Bool := !(isJSWhiteSpace c || c == '@')

/-- The pattern `/^[^\s@]+@[^\s@]+\.[^\s@]+$/` of `isValidEmail`. -/
def emailRegex : Regex :=
  .seq (.plus (.cls notSpaceNorAt))
    (.seq (.chr '@')
      (.seq (.plus (.cls notSpaceNorAt))
        (.seq (.chr '.') (.plus (.cls notSpaceNorAt)))))

/-- `isValidEmail(email)`: `emailRegex.test(email)`. -/
def isValidEmail (email : String) : Bool := emailRegex.test email

/-! ## JavaScript values held by form fields and storage -/

/-- The values a form field takes in `auth.js`: `FormData.get` yields a string or `null`, and
an optional chain on `null` yields `undefined`. -/
inductive JSVal where
  | undefined : JSVal
  | null : JSVal
  | str (s : String) : JSVal
  deriving DecidableEq, Repr

namespace JSVal

/-- Truthiness (`ToBoolean`): only a non-empty string is truthy. -/
def truthy : JSVal → Bool
  | undefined => false
  | null => false
  | str s => s != ""

/-- Conversion to a string (`ToString`), as done by template literals and `RegExp.test`. -/
def toJSString : JSVal → String
  | undefined => "undefined"
  | null => "null"
  | str s => s

/-- The property `.length` of a string value. -/
def length : JSVal → Nat
  | str s => jsLength s
  | _ => 0

/-- Strict inequality `a !== b`. -/
def strictNe (a b : JSVal) : Bool := decide (a ≠ b)

end JSVal

/-- The method `trim`: white space removed at both ends. -/
def jsTrim (s : String) : String :=
  String.mk ((s.toList.dropWhile isJSWhiteSpace).reverse.dropWhile isJSWhiteSpace).reverse

/-- The decimal digit `d` as a character. -/
def digitChar (d : Nat) : Char := Char.ofNat (48 + d)

/-- Decimal digits of `n`, most significant first; `fuel` bounds the number of digits. -/
def natDigits : Nat → Nat → List Char
  | 0, _ => []
  | fuel + 1, n =>
      if n < 10 then [digitChar n] else natDigits fuel (n / 10) ++ [digitChar (n % 10)]

/-- `String(n)` for an integral number `n`. -/
def numberToString : Int → String
  | Int.ofNat n => String.mk (natDigits (n + 1) n)
  | Int.negSucc n => String.mk ('-' :: natDigits (n + 2) (n + 1))

/-- The value of `c` as a digit in the given radix, if it is one. -/
def digitValue (radix : Nat) (c : Char) : Option Nat :=
  let n := c.toNat
  let v : Option Nat :=
    if 48 ≤ n ∧ n ≤ 57 then some (n - 48)
    else if 97 ≤ n ∧ n ≤ 122 then some (n - 97 + 10)
    else if 65 ≤ n ∧ n ≤ 90 then some (n - 65 + 10)
    else none
  v.filter (fun d => d < radix)

/-- The values of the longest prefix of digits of the input. -/
def leadingDigits (radix : Nat) : List Char → List Nat
  | [] => []
  | c :: cs =>
      match digitValue radix c with
      | some d => d :: leadingDigits radix cs
      | none => []

/-- The sign read by `parseInt`: whether the input starts with `-`, and the input after
one leading `-` or `+`. -/
def stripSign : List Char → Bool × List Char
  | '-' :: r => (true, r)
  | '+' :: r => (false, r)
  | cs => (false, cs)

/-- The radix chosen by `parseInt` without a radix argument: 16 after a prefix `0x` or
`0X`, which is removed, and 10 otherwise. -/
def stripRadix : List Char → Nat × List Char
  | '0' :: 'x' :: r => (16, r)
  | '0' :: 'X' :: r => (16, r)
  | cs => (10, cs)

/-- `parseInt(s)` without a radix argument; `none` is `NaN`.  Leading white space is skipped,
one sign is read, a `0x`/`0X` prefix selects radix 16, and the longest prefix of digits is
the value. -/
def parseInt (s : String) : Option Int :=
  let signed := stripSign (s.toList.dropWhile isJSWhiteSpace)
  let based := stripRadix signed.2
  let ds := leadingDigits based.1 based.2
  if ds.isEmpty then none
  else
    let v : Int := Int.ofNat (ds.foldl (fun acc d => acc * based.1 + d) 0)
    some (if signed.1 then -v else v)

/-! ## `localStorage` -/

/-- The storage area: string keys, string values; an absent key reads as `null`. -/
abbrev Storage := String → Option String

namespace Storage

/-- The empty storage area. -/
def empty : Storage := fun _ => none

/-- `localStorage.getItem(key)`. -/
def getItem (st : Storage) (key : String) : Option String := st key

/-- `localStorage.setItem(key, value)`. -/
def setItem (st : Storage) (key value : String) : Storage :=
  fun k => if k = key then some value else st k

/-- `localStorage.removeItem(key)`. -/
def removeItem (st : Storage) (key : String) : Storage :=
  fun k => if k = key then none else st k

end Storage

/-- `parseInt(localStorage.getItem(key))`: a missing entry is `null`, converted to the string
`"null"` by `parseInt`. -/
def parseIntItem (item : Option String) : Option Int :=
  parseInt (match item with
    | some v => v
    | none => "null")

/-! ## Platform and page -/

/-- An entry of the analytics log, as built by `trackEvent`.  The field `timestamp` holds
the instant (epoch milliseconds) that `new Date().toISOString()` renders. -/
structure AuthEvent where
  name : String
  timestamp : Int
  data : List (String × String)
  userAgent : String
  url : String
  deriving DecidableEq, Repr

/-- What the browser supplies to the scripts: built-in functions whose tables are not part of
the repository, and the properties of the page. -/
structure Env where
  /-- The method `String.prototype.toLowerCase`. -/
  toLowerCase : String → String
  /-- The text `JSON.stringify(events)` of an analytics log. -/
  stringifyEvents : List AuthEvent → String
  /-- The text `JSON.stringify(preferences)` of the default preferences with the given
  `last_activity` instant. -/
  stringifyPreferences : Int → String
  /-- The property `navigator.userAgent`. -/
  userAgent : String
  /-- The property `window.location.href`. -/
  href : String
  /-- The value of `new URLSearchParams(window.location.search).get('redirect')`. -/
  redirectParam : Option String

/-- A submitted form: `new FormData(e.target)`, read with `get`. -/
abbrev FormData := String → Option String

/-- `formData.get(name)`: the field value, or `null`. -/
def FormData.get (f : FormData) (name : String) : JSVal :=
  match f name with
  | some v => JSVal.str v
  | none => JSVal.null

/-- `v?.trim()`. -/
def optTrim : JSVal → JSVal
  | JSVal.str s => JSVal.str (jsTrim s)
  | _ => JSVal.undefined

/-- `v?.trim().toLowerCase()`. -/
def optTrimLower (env : Env) : JSVal → JSVal
  | JSVal.str s => JSVal.str (env.toLowerCase (jsTrim s))
  | _ => JSVal.undefined

/-! ## Registration data and its validation -/

/-- The record built by `processFormData` and checked by `validateRegisterForm`. -/
structure RegisterData where
  nom : JSVal
  prenom : JSVal
  email : JSVal
  password : JSVal
  confirmPassword : JSVal
  filiere : JSVal
  telephone : JSVal
  newsletter : Bool
  deriving DecidableEq, Repr

/-- `processFormData(formData)`. -/
def processFormData (env : Env) (formData : FormData) : RegisterData :=
  { nom := JSVal.str (jsTrim ((formData.get "prenom").toJSString ++ " " ++
      (formData.get "nom").toJSString))
    prenom := optTrim (formData.get "prenom")
    email := optTrimLower env (formData.get "email")
    password := formData.get "password"
    confirmPassword := formData.get "confirmPassword"
    filiere := formData.get "filiere"
    telephone := optTrim (formData.get "telephone")
    newsletter := decide (formData.get "newsletter" = JSVal.str "on") }

/-- `isValidEmail` applied to a field value (`test` converts its argument to a string). -/
def isValidEmailVal (v : JSVal) : Bool := isValidEmail v.toJSString

/-- One entry of the list `validations`: the truthiness of `condition`, and `message`. -/
structure Validation where
  condition : Bool
  message : String
  deriving DecidableEq, Repr

/-- The object returned by `validateRegisterForm`. -/
structure ValidationResult where
  isValid : Bool
  message : String
  deriving DecidableEq, Repr

/-- The list `validations` of `validateRegisterForm`, in source order. -/
def validations (data : RegisterData) : List Validation :=
  [ ⟨!data.nom.truthy || !data.prenom.truthy, "Le nom complet est requis"⟩,
    ⟨!data.email.truthy, "L'email est requis"⟩,
    ⟨data.email.truthy && !isValidEmailVal data.email, "Format d'email invalide"⟩,
    ⟨!data.password.truthy, "Le mot de passe est requis"⟩,
    ⟨data.password.truthy && decide (data.password.length < 6),
      "Le mot de passe doit contenir au moins 6 caractères"⟩,
    ⟨data.password.strictNe data.confirmPassword, "Les mots de passe ne correspondent pas"⟩,
    ⟨!data.filiere.truthy, "La filière est requise"⟩ ]

/-- `validateRegisterForm(data)`: the first entry whose condition holds decides. -/
def validateRegisterForm (data : RegisterData) : ValidationResult :=
  let failedValidation := (validations data).find? (fun v => v.condition)
  { isValid := failedValidation.isNone
    message :=
      match failedValidation with
      | some v => if v.message != "" then v.message else ""
      | none => "" }

/-! ## The page state -/

/-- Errors raised by the scripts or by the platform. -/
inductive JSError where
  /-- An identifier that no scope binds. -/
  | referenceError (identifier : String) : JSError
  /-- A property read on `undefined` or `null`. -/
  | typeError (property : String) : JSError
  /-- The promise of `fetch` rejected: network failure, or abort after the 10 s timeout. -/
  | fetchFailed : JSError
  /-- The promise of `response.json()` rejected: the body is not the expected JSON. -/
  | invalidBody : JSError
  /-- The function `JSON.parse` rejected its argument. -/
  | syntaxError : JSError
  deriving DecidableEq, Repr

/-- How a call ends: with a value, or by raising. -/
inductive Completion (α : Type) where
  | normal (value : α) : Completion α
  | throw (error : JSError) : Completion α
  deriving DecidableEq, Repr

/-- The argument of `showLockoutMessage`: the string read from storage (in
`checkLockoutStatus`) or the number just computed (in `lockoutAccount`). -/
inductive LockoutArg where
  | stored (text : String) : LockoutArg
  | computed (deadline : Int) : LockoutArg
  deriving DecidableEq, Repr

/-- A security overlay appended to the document.  Its text is
`🔒 Trop de tentatives échouées. Compte verrouillé pour ${remainingTime} minutes.` with
`remainingTime = Math.ceil((lockoutUntil - Date.now()) / 60000)`; the overlay is recorded by
the two values that determine it. -/
structure Overlay where
  lockoutUntil : LockoutArg
  shownAt : Int
  deriving DecidableEq, Repr

/-- A call of `showMessage(message, type)`. -/
structure Message where
  text : JSVal
  type : String
  deriving DecidableEq, Repr

/-- The body of a request, before `JSON.stringify`. -/
inductive RequestBody where
  | login (email password : JSVal) (remember : Bool) : RequestBody
  | register (data : RegisterData) : RequestBody
  deriving DecidableEq, Repr

/-- A call of `fetch` made by `makeRequest`. -/
structure Request where
  url : String
  body : RequestBody
  deriving DecidableEq, Repr

/-- A navigation scheduled with `setTimeout`. -/
structure Redirect where
  destination : String
  delay : Nat
  deriving DecidableEq, Repr

/-- Everything the handlers read or write: the fields of the `AuthManager` instance and of
its `SecurityManager` (`failedAttempts`) and `AuthAnalytics` (`events`), the storage area,
and a record of the observable effects (requests, messages, overlays, loader, scheduled
navigations). -/
structure World where
  /-- The field `AuthManager.isProcessing`. -/
  isProcessing : Bool
  /-- The field `SecurityManager.failedAttempts`. -/
  failedAttempts : Int
  /-- The field `AuthAnalytics.events`. -/
  events : List AuthEvent
  /-- The area `localStorage`. -/
  storage : Storage
  /-- The calls of `fetch`, oldest first. -/
  requests : List Request
  /-- The calls of `showMessage`, oldest first. -/
  messages : List Message
  /-- The security overlays appended to the document, oldest first. -/
  overlays : List Overlay
  /-- Whether the loader is displayed (`showLoader`). -/
  loaderShown : Bool
  /-- The navigations scheduled, oldest first. -/
  redirects : List Redirect

/-! ## `SecurityManager` -/

/-- The field `maxAttempts`, set once by the constructor. -/
def maxAttempts : Int := 5

/-- The field `lockoutTime`, set once by the constructor: 15 minutes. -/
def lockoutTime : Int := 15 * 60 * 1000

/-- The constructor of `SecurityManager`:
`failedAttempts = parseInt(localStorage.getItem('failed_login_attempts')) || 0`. -/
def SecurityManager.new (w : World) : World :=
  { w with
    failedAttempts :=
      match parseIntItem (w.storage.getItem "failed_login_attempts") with
      | some n => if n = 0 then 0 else n
      | none => 0 }

/-- The identifiers in scope in the body of `createSecurityOverlay`: its parameter and its
local constant.  The scripts declare no global of another name than their four classes and
the functions of `dashboard.js`. -/
def createSecurityOverlayScope : List String :=
  ["message", "overlay", "AuthManager", "SecurityManager", "AuthAnalytics", "AuthUIManager",
    "loadUserData", "loadUserDetails", "logoutUser"]

/-- Evaluation of an identifier against the identifiers in scope. -/
def resolveIdentifier (scope : List String) (identifier : String) : Completion Unit :=
  if scope.contains identifier then Completion.normal () else
    Completion.throw (JSError.referenceError identifier)

/-- `createSecurityOverlay(message)`: appends the overlay, then evaluates the call
`this.startSecurityTimer(lockoutUntil)`, whose argument is an identifier that the method
does not bind. -/
def createSecurityOverlay (w : World) (message : Overlay) : World × Completion Unit :=
  let w1 := { w with overlays := w.overlays ++ [message] }
  match resolveIdentifier createSecurityOverlayScope "lockoutUntil" with
  | Completion.throw e => (w1, Completion.throw e)
  | Completion.normal _ => (w1, Completion.normal ())

/-- `showLockoutMessage(lockoutUntil)`. -/
def showLockoutMessage (w : World) (lockoutUntil : LockoutArg) (now : Int) :
    World × Completion Unit :=
  createSecurityOverlay w { lockoutUntil := lockoutUntil, shownAt := now }

/-- `checkLockoutStatus()` at the instant `now`. -/
def checkLockoutStatus (w : World) (now : Int) : World × Completion Bool :=
  match w.storage.getItem "auth_lockout_until" with
  | none => (w, Completion.normal false)
  | some lockoutUntil =>
      let future : Bool :=
        match parseInt lockoutUntil with
        | some deadline => decide (now < deadline)
        | none => false
      if lockoutUntil != "" && future then
        match showLockoutMessage w (LockoutArg.stored lockoutUntil) now with
        | (w1, Completion.throw e) => (w1, Completion.throw e)
        | (w1, Completion.normal _) => (w1, Completion.normal true)
      else (w, Completion.normal false)

/-- `lockoutAccount()` at the instant `now`. -/
def lockoutAccount (w : World) (now : Int) : World × Completion Unit :=
  let lockoutUntil := now + lockoutTime
  let w1 := { w with
    storage := w.storage.setItem "auth_lockout_until" (numberToString lockoutUntil) }
  showLockoutMessage w1 (LockoutArg.computed lockoutUntil) now

/-- `recordFailedAttempt()` at the instant `now`. -/
def recordFailedAttempt (w : World) (now : Int) : World × Completion Unit :=
  let w1 := { w with failedAttempts := w.failedAttempts + 1 }
  let w2 := { w1 with
    storage := w1.storage.setItem "failed_login_attempts" (numberToString w1.failedAttempts) }
  if w2.failedAttempts ≥ maxAttempts then lockoutAccount w2 now
  else (w2, Completion.normal ())

/-- `resetFailedAttempts()`. -/
def resetFailedAttempts (w : World) : World :=
  { w with
    failedAttempts := 0
    storage := (w.storage.removeItem "failed_login_attempts").removeItem "auth_lockout_until" }

/-! ## `AuthAnalytics` -/

/-- The constructor of `AuthAnalytics`: `this.events = []`. -/
def AuthAnalytics.new (w : World) : World := { w with events := [] }

/-- `saveToStorage()`: keeps the last 50 entries, then writes the log. -/
def saveToStorage (env : Env) (w : World) : World :=
  let w1 := if w.events.length > 50 then
      { w with events := w.events.drop (w.events.length - 50) }
    else w
  { w1 with storage := w1.storage.setItem "auth_analytics" (env.stringifyEvents w1.events) }

/-- `trackEvent(eventName, data)` at the instant `now`. -/
def trackEvent (env : Env) (w : World) (now : Int) (eventName : String)
    (data : List (String × String)) : World :=
  let event : AuthEvent :=
    { name := eventName, timestamp := now, data := data,
      userAgent := env.userAgent, url := env.href }
  saveToStorage env { w with events := w.events ++ [event] }

/-! ## `AuthManager` -/

/-- The value of `result.user` in a login response: absent, `null`, or a record, given by
its property `email` and by its text `JSON.stringify(user)`. -/
inductive UserVal where
  | undefined : UserVal
  | null : UserVal
  | record (email : JSVal) (json : String) : UserVal
  deriving DecidableEq, Repr

/-- The object read from a response body: the truthiness of `success`, `user`, `message`. -/
structure ApiResult where
  success : Bool
  user : UserVal
  message : JSVal
  deriving DecidableEq, Repr

/-- What `await makeRequest(...)` followed by `await response.json()` yields. -/
inductive ServerReply where
  /-- The promise of `fetch` rejects (network failure, or abort by the 10 s timer). -/
  | fetchFailed : ServerReply
  /-- The promise of `response.json()` rejects. -/
  | invalidBody : ServerReply
  /-- The body parses to `result`. -/
  | result (r : ApiResult) : ServerReply
  deriving DecidableEq, Repr

/-- The login record `data` built by `handleLogin`. -/
structure LoginData where
  email : JSVal
  password : JSVal
  remember : Bool
  deriving DecidableEq, Repr

/-- `setProcessingState(processing)`; the submit buttons follow the flag. -/
def setProcessingState (w : World) (processing : Bool) : World :=
  { w with isProcessing := processing }

/-- `showLoader(show)`. -/
def showLoader (w : World) (visible : Bool) : World := { w with loaderShown := visible }

/-- `showMessage(message, type)`: the call is recorded by its arguments; the markup that it
assigns to the message box is `messageMarkup`. -/
def showMessage (w : World) (message : JSVal) (type : String) : World :=
  { w with messages := w.messages ++ [{ text := message, type := type }] }

/-- The call of `fetch` in `makeRequest(url, data)`. -/
def makeRequest (w : World) (url : String) (body : RequestBody) : World :=
  { w with requests := w.requests ++ [{ url := url, body := body }] }

/-- A navigation scheduled by `setTimeout(() => { window.location.href = ... }, delay)`. -/
def scheduleRedirect (w : World) (destination : String) (delay : Nat) : World :=
  { w with redirects := w.redirects ++ [{ destination := destination, delay := delay }] }

/-- A `try { body } catch (error) { handler } finally { finalizer }` statement. -/
def tryCatchFinally (body : World × Completion Unit)
    (handler : World → JSError → World × Completion Unit) (finalizer : World → World) :
    World × Completion Unit :=
  let caught : World × Completion Unit :=
    match body with
    | (w, Completion.throw e) => handler w e
    | (w, Completion.normal v) => (w, Completion.normal v)
  (finalizer caught.1, caught.2)

/-- `saveUserPreferences(data)` at the instant `now`. -/
def saveUserPreferences (env : Env) (w : World) (now : Int) : World :=
  { w with storage := w.storage.setItem "user_preferences" (env.stringifyPreferences now) }

/-- `saveUserSession(user, remember)` at the instant `now`.  Reading `user.email` raises
when `user` is `undefined` or `null`, after the entry `user` has been written. -/
def saveUserSession (env : Env) (w : World) (user : UserVal) (remember : Bool) (now : Int) :
    World × Completion Unit :=
  let userJson : String :=
    match user with
    | UserVal.undefined => "undefined"
    | UserVal.null => "null"
    | UserVal.record _ json => json
  let w1 := { w with storage := w.storage.setItem "user" userJson }
  match user with
  | UserVal.undefined => (w1, Completion.throw (JSError.typeError "email"))
  | UserVal.null => (w1, Completion.throw (JSError.typeError "email"))
  | UserVal.record email _ =>
      let w2 := { w1 with storage := w1.storage.setItem "last_used_email" email.toJSString }
      let w3 := { w2 with storage := w2.storage.setItem "user_login_time" (numberToString now) }
      let w4 := if remember then
          { w3 with storage := w3.storage.setItem "remember_me" "true" }
        else w3
      (saveUserPreferences env w4 now, Completion.normal ())

/-- `handleLoginSuccess(result, data)` at the instant `now`. -/
def handleLoginSuccess (env : Env) (w : World) (result : ApiResult) (data : LoginData)
    (now : Int) : World × Completion Unit :=
  let w1 := trackEvent env w now "login_success" []
  let w2 := showMessage w1 (JSVal.str "✅ Connexion réussie!") "success"
  match saveUserSession env w2 result.user data.remember now with
  | (w3, Completion.throw e) => (w3, Completion.throw e)
  | (w3, Completion.normal _) =>
      let redirectTo : String :=
        match env.redirectParam with
        | some target => if target != "" then target else "/dashboard"
        | none => "/dashboard"
      (scheduleRedirect w3 redirectTo 1000, Completion.normal ())

/-- `handleLoginFailure(data)` at the instant `now`.  The call `highlightErrorFields()`
that ends the method only restyles the empty inputs. -/
def handleLoginFailure (env : Env) (w : World) (data : LoginData) (now : Int) :
    World × Completion Unit :=
  match recordFailedAttempt w now with
  | (w1, Completion.throw e) => (w1, Completion.throw e)
  | (w1, Completion.normal _) =>
      let w2 := trackEvent env w1 now "login_failed" [("email", data.email.toJSString)]
      let remainingAttempts := maxAttempts - w2.failedAttempts
      let message : String :=
        if remainingAttempts > 0 then
          "❌ Identifiants incorrects. " ++ numberToString remainingAttempts ++
            " tentatives restantes."
        else "🔒 Compte temporairement verrouillé. Réessayez dans 15 minutes."
      (showMessage w2 (JSVal.str message) "error", Completion.normal ())

/-- `handleLoginError(error)` at the instant `now`; the error itself goes to the console
only. -/
def handleLoginError (env : Env) (w : World) (now : Int) : World × Completion Unit :=
  let w1 := showMessage w (JSVal.str "❌ Erreur de connexion au serveur") "error"
  (trackEvent env w1 now "login_error" [], Completion.normal ())

/-- `validateLoginForm(data)`. -/
def validateLoginForm (w : World) (data : LoginData) : World × Bool :=
  if !data.email.truthy || !data.password.truthy then
    (showMessage w (JSVal.str "Veuillez remplir tous les champs") "error", false)
  else if !isValidEmailVal data.email then
    (showMessage w (JSVal.str "Format d'email invalide") "error", false)
  else (w, true)

/-- The `try` block of `handleLogin`, resumed at the instant `later` when the reply to the
request arrives. -/
def loginAttempt (env : Env) (w : World) (data : LoginData) (reply : ServerReply)
    (later : Int) : World × Completion Unit :=
  let w1 := showLoader w true
  let w2 := makeRequest w1 "/api/login" (RequestBody.login data.email data.password data.remember)
  match reply with
  | ServerReply.fetchFailed => (w2, Completion.throw JSError.fetchFailed)
  | ServerReply.invalidBody => (w2, Completion.throw JSError.invalidBody)
  | ServerReply.result result =>
      if result.success then handleLoginSuccess env w2 result data later
      else handleLoginFailure env w2 data later

/-- `handleLogin(e)`: the form is submitted at the instant `now`; the server's `reply`
arrives at the instant `later`.  The two guards come before the `try` statement: an error
raised by `checkLockoutStatus` ends the handler. -/
def handleLogin (env : Env) (w : World) (formData : FormData) (now : Int)
    (reply : ServerReply) (later : Int) : World × Completion Unit :=
  if w.isProcessing then (w, Completion.normal ())
  else
    match checkLockoutStatus w now with
    | (w1, Completion.throw e) => (w1, Completion.throw e)
    | (w1, Completion.normal true) => (w1, Completion.normal ())
    | (w1, Completion.normal false) =>
        let w2 := setProcessingState w1 true
        let w3 := trackEvent env w2 now "login_attempt" []
        let data : LoginData :=
          { email := optTrimLower env (formData.get "email")
            password := formData.get "password"
            remember := decide (formData.get "remember" = JSVal.str "on") }
        match validateLoginForm w3 data with
        | (w4, false) => (setProcessingState w4 false, Completion.normal ())
        | (w4, true) =>
            tryCatchFinally (loginAttempt env w4 data reply later)
              (fun w5 _ => handleLoginError env w5 later)
              (fun w6 => showLoader (setProcessingState w6 false) false)

/-- The `try` block of `handleRegister`, resumed at the instant `later` when the reply to
the request arrives. -/
def registerAttempt (env : Env) (w : World) (data : RegisterData) (reply : ServerReply)
    (later : Int) : World × Completion Unit :=
  let w1 := showLoader w true
  let w2 := makeRequest w1 "/api/register" (RequestBody.register data)
  match reply with
  | ServerReply.fetchFailed => (w2, Completion.throw JSError.fetchFailed)
  | ServerReply.invalidBody => (w2, Completion.throw JSError.invalidBody)
  | ServerReply.result result =>
      if result.success then
        let w3 := trackEvent env w2 later "register_success" []
        let w4 := showMessage w3 (JSVal.str "🎉 Compte créé avec succès! Redirection...") "success"
        let w5 := saveUserPreferences env w4 later
        let w6 := resetFailedAttempts w5
        (scheduleRedirect w6 "/login?new_user=true" 2000, Completion.normal ())
      else
        let w3 := trackEvent env w2 later "register_failed" []
        (showMessage w3 result.message "error", Completion.normal ())

/-- `handleRegister(e)`: the form is submitted at the instant `now`; the server's `reply`
arrives at the instant `later`. -/
def handleRegister (env : Env) (w : World) (formData : FormData) (now : Int)
    (reply : ServerReply) (later : Int) : World × Completion Unit :=
  if w.isProcessing then (w, Completion.normal ())
  else
    match checkLockoutStatus w now with
    | (w1, Completion.throw e) => (w1, Completion.throw e)
    | (w1, Completion.normal true) => (w1, Completion.normal ())
    | (w1, Completion.normal false) =>
        let w2 := setProcessingState w1 true
        let w3 := trackEvent env w2 now "register_attempt" []
        let data := processFormData env formData
        let validation := validateRegisterForm data
        if !validation.isValid then
          (setProcessingState (showMessage w3 (JSVal.str validation.message) "error") false,
            Completion.normal ())
        else
          tryCatchFinally (registerAttempt env w3 data reply later)
            (fun w4 _ =>
              let w5 := showMessage w4 (JSVal.str "❌ Erreur de connexion au serveur") "error"
              (trackEvent env w5 later "register_error" [], Completion.normal ()))
            (fun w6 => showLoader (setProcessingState w6 false) false)

/-! ## Sample inputs -/

/-- A page environment for concrete runs: the log is rendered by its event names. -/
def sampleEnv : Env :=
  { toLowerCase := fun s => String.mk (s.toList.map Char.toLower)
    stringifyEvents := fun es => "[" ++ ",".intercalate (es.map (fun e => e.name)) ++ "]"
    stringifyPreferences := fun t => "last_activity=" ++ numberToString t
    userAgent := "agent"
    href := "http://localhost/login"
    redirectParam := none }

/-- The state of a page just loaded over an empty storage area. -/
def initialWorld : World :=
  { isProcessing := false, failedAttempts := 0, events := [], storage := Storage.empty,
    requests := [], messages := [], overlays := [], loaderShown := false, redirects := [] }

/-- A login form filled with the given e-mail address and password. -/
def loginForm (email password : String) : FormData :=
  fun name => if name = "email" then some email else if name = "password" then some password
    else none

/-- Consecutive calls of `recordFailedAttempt`, one at each of the given instants; a call
that raises has performed its writes, and the next call starts from the state it left. -/
def recordFailedAttempts (w : World) : List Int → World
  | [] => w
  | now :: rest => recordFailedAttempts (recordFailedAttempt w now).1 rest

/-- One call `trackEvent(eventName, data)` made at the instant `now`. -/
structure TrackCall where
  now : Int
  eventName : String
  data : List (String × String)
  deriving DecidableEq, Repr

/-- The log entry that a call of `trackEvent` builds. -/
def TrackCall.event (env : Env) (c : TrackCall) : AuthEvent :=
  { name := c.eventName, timestamp := c.now, data := c.data,
    userAgent := env.userAgent, url := env.href }

/-- Consecutive calls of `trackEvent`. -/
def trackEvents (env : Env) (w : World) : List TrackCall → World
  | [] => w
  | c :: rest => trackEvents env (trackEvent env w c.now c.eventName c.data) rest

/-- The last `n` entries of a list, in their order. -/
def lastEntries (n : Nat) (l : List AuthEvent) : List AuthEvent := l.drop (l.length - n)

/-- A page loaded over a storage area that holds the log of an earlier page load. -/
def worldWithEarlierLog : World :=
  { initialWorld with
    storage := Storage.empty.setItem "auth_analytics"
      (sampleEnv.stringifyEvents
        [{ name := "login_attempt", timestamp := 0, data := [], userAgent := "agent",
           url := "http://localhost/login" }]) }

/-- A submission of the login form or of the registration form at the instant `now`, with
the server's `reply` arriving at the instant `later`. -/
inductive Submission where
  | login (formData : FormData) (now : Int) (reply : ServerReply) (later : Int) : Submission
  | register (formData : FormData) (now : Int) (reply : ServerReply) (later : Int) : Submission

/-- The instant of a submission. -/
def Submission.time : Submission → Int
  | Submission.login _ now _ _ => now
  | Submission.register _ now _ _ => now

/-- The handler run by a submission. -/
def submit (env : Env) (w : World) : Submission → World × Completion Unit
  | Submission.login formData now reply later => handleLogin env w formData now reply later
  | Submission.register formData now reply later =>
      handleRegister env w formData now reply later

/-- Consecutive submissions, each handled from the state the previous one left. -/
def submitAll (env : Env) (w : World) : List Submission → World
  | [] => w
  | s :: rest => submitAll env (submit env w s).1 rest

/-- The lockout deadline persisted under `auth_lockout_until`, read as `checkLockoutStatus`
reads it; `none` when the entry is absent or is not a number. -/
def lockoutDeadline (w : World) : Option Int :=
  match w.storage.getItem "auth_lockout_until" with
  | some v => parseInt v
  | none => none

/-! ## The registration rules, as the specification words them -/

/-- A required field is missing: absent, or the empty string. -/
def FieldMissing (v : JSVal) : Prop := v = JSVal.undefined ∨ v = JSVal.null ∨ v = JSVal.str ""

instance FieldMissing.decidable (v : JSVal) : Decidable (FieldMissing v) :=
  inferInstanceAs (Decidable (v = JSVal.undefined ∨ v = JSVal.null ∨ v = JSVal.str ""))

/-- Failure of the rules of the registration form, numbered in the order of the
specification: (0) full name required, (1) e-mail required, (2) e-mail format invalid,
(3) password required, (4) password shorter than 6 characters, (5) password differs from
its confirmation, (6) program required. -/
def SpecRuleFails (data : RegisterData) : Fin 7 → Prop
  | 0 => FieldMissing data.nom ∨ FieldMissing data.prenom
  | 1 => FieldMissing data.email
  | 2 => ¬ FieldMissing data.email ∧ isValidEmailVal data.email = false
  | 3 => FieldMissing data.password
  | 4 => ¬ FieldMissing data.password ∧ data.password.length < 6
  | 5 => data.password ≠ data.confirmPassword
  | 6 => FieldMissing data.filiere

instance SpecRuleFails.decidable (data : RegisterData) :
    (i : Fin 7) → Decidable (SpecRuleFails data i)
  | 0 => inferInstanceAs (Decidable (FieldMissing data.nom ∨ FieldMissing data.prenom))
  | 1 => inferInstanceAs (Decidable (FieldMissing data.email))
  | 2 => inferInstanceAs
      (Decidable (¬ FieldMissing data.email ∧ isValidEmailVal data.email = false))
  | 3 => inferInstanceAs (Decidable (FieldMissing data.password))
  | 4 => inferInstanceAs (Decidable (¬ FieldMissing data.password ∧ data.password.length < 6))
  | 5 => inferInstanceAs (Decidable (data.password ≠ data.confirmPassword))
  | 6 => inferInstanceAs (Decidable (FieldMissing data.filiere))

/-- The message of each rule. -/
def specRuleMessage : Fin 7 → String
  | 0 => "Le nom complet est requis"
  | 1 => "L'email est requis"
  | 2 => "Format d'email invalide"
  | 3 => "Le mot de passe est requis"
  | 4 => "Le mot de passe doit contenir au moins 6 caractères"
  | 5 => "Les mots de passe ne correspondent pas"
  | 6 => "La filière est requise"

/-! ## Session helpers of `AuthManager` -/

/-- The page environment read by the session helpers: the environment of the handlers, the
function `JSON.parse` and the path of the page. -/
structure PageEnv extends Env where
  /-- The truthiness of `JSON.parse(text)`; `none` when `JSON.parse` raises. -/
  parseTruthy : String → Option Bool
  /-- The property `window.location.pathname`. -/
  pathname : String

/-- `getCurrentUser()`: `userData ? JSON.parse(userData) : null`, given by the truthiness of
the value returned. -/
def getCurrentUser (penv : PageEnv) (w : World) : Completion Bool :=
  match w.storage.getItem "user" with
  | none => Completion.normal false
  | some userData =>
      if userData != "" then
        match penv.parseTruthy userData with
        | some user => Completion.normal user
        | none => Completion.throw JSError.syntaxError
      else Completion.normal false

/-- `shouldRedirectToDashboard()`. -/
def shouldRedirectToDashboard (penv : PageEnv) : Bool :=
  penv.pathname == "/login" || penv.pathname == "/register"

/-- `checkExistingSession()`. -/
def checkExistingSession (penv : PageEnv) (w : World) : World × Completion Unit :=
  match getCurrentUser penv w with
  | Completion.throw e => (w, Completion.throw e)
  | Completion.normal user =>
      if user && shouldRedirectToDashboard penv then
        (scheduleRedirect w "/dashboard" 500, Completion.normal ())
      else (w, Completion.normal ())

/-- The object returned by `getAuthStatus`; `user` is recorded by the stored text it was
parsed from. -/
structure AuthStatus where
  isAuthenticated : Bool
  user : Option String
  loginTime : Option String
  deriving DecidableEq, Repr

/-- `getAuthStatus()`. -/
def getAuthStatus (penv : PageEnv) (w : World) : World × Completion AuthStatus :=
  match getCurrentUser penv w with
  | Completion.throw e => (w, Completion.throw e)
  | Completion.normal user =>
      (w, Completion.normal
        { isAuthenticated := user
          user := if user then w.storage.getItem "user" else none
          loginTime := w.storage.getItem "user_login_time" })

/-- `logout()` at the instant `now`; `confirmed` is the answer to the `confirm` dialog.  The
assignment of `window.location.href` is recorded as a navigation without delay. -/
def logout (env : Env) (w : World) (confirmed : Bool) (now : Int) : World :=
  if confirmed then
    let w1 := trackEvent env w now "user_logout" []
    let w2 := { w1 with storage := w1.storage.removeItem "user" }
    let w3 := { w2 with storage := w2.storage.removeItem "user_login_time" }
    scheduleRedirect w3 "/login" 0
  else w

/-- The operations of `AuthManager` that a page can trigger. -/
inductive Operation where
  | handleLogin (formData : FormData) (now : Int) (reply : ServerReply) (later : Int) :
      Operation
  | handleRegister (formData : FormData) (now : Int) (reply : ServerReply) (later : Int) :
      Operation
  | logout (confirmed : Bool) (now : Int) : Operation
  | checkExistingSession : Operation
  | getAuthStatus : Operation

/-- The state left by one operation. -/
def perform (penv : PageEnv) (w : World) : Operation → World
  | Operation.handleLogin formData now reply later =>
      (handleLogin penv.toEnv w formData now reply later).1
  | Operation.handleRegister formData now reply later =>
      (handleRegister penv.toEnv w formData now reply later).1
  | Operation.logout confirmed now => logout penv.toEnv w confirmed now
  | Operation.checkExistingSession => (checkExistingSession penv w).1
  | Operation.getAuthStatus => (getAuthStatus penv w).1

/-- The state left by consecutive operations. -/
def performAll (penv : PageEnv) (w : World) : List Operation → World
  | [] => w
  | op :: rest => performAll penv (perform penv w op) rest

/-- A page environment for concrete runs of the session helpers. -/
def samplePageEnv : PageEnv :=
  { toEnv := sampleEnv
    parseTruthy := fun text => if text = "undefined" then none else some (text != "null")
    pathname := "/login" }

/-! ## Guards and local validation, as the specification words them -/

/-- The login record that `handleLogin` builds from the submitted form. -/
def loginDataOf (env : Env) (formData : FormData) : LoginData :=
  { email := optTrimLower env (formData.get "email")
    password := formData.get "password"
    remember := decide (formData.get "remember" = JSVal.str "on") }

/-- A lockout deadline is persisted and still in the future at the instant `now`. -/
def lockoutPending (w : World) (now : Int) : Bool :=
  match lockoutDeadline w with
  | some deadline => decide (now < deadline)
  | none => false

/-- The login record passes the local validation: e-mail address and password present,
e-mail address well-formed. -/
def loginValid (data : LoginData) : Bool :=
  data.email.truthy && data.password.truthy && isValidEmailVal data.email

/-- A registration form with the given first name, family name, e-mail address, password,
confirmation and program. -/
def registerForm (prenom nom email password confirmPassword filiere : String) : FormData :=
  fun name =>
    if name = "prenom" then some prenom
    else if name = "nom" then some nom
    else if name = "email" then some email
    else if name = "password" then some password
    else if name = "confirmPassword" then some confirmPassword
    else if name = "filiere" then some filiere
    else none

/-- A registration form as `registerForm` fills it, with the field `nom` left out. -/
def registerFormWithoutNom (prenom email password confirmPassword filiere : String) :
    FormData :=
  fun name =>
    if name = "nom" then none
    else registerForm prenom "" email password confirmPassword filiere name

/-- A page at rest whose storage holds a failure count of 5 and a deadline that has elapsed
at the instant 1000. -/
def worldAfterLockout : World :=
  { initialWorld with
    failedAttempts := 5
    storage := (Storage.empty.setItem "failed_login_attempts" "5").setItem
      "auth_lockout_until" "500" }

/-! ## The countdown of `startSecurityTimer` -/

/-- What one run of `updateTimer` does: it writes the text of the timer and schedules the
next run, or it reloads the page. -/
inductive TimerStep where
  | display (text : String) (nextRunIn : Nat) : TimerStep
  | reload : TimerStep
  deriving DecidableEq, Repr

/-- `text.padStart(2, '0')`. -/
def padStart2 (text : String) : String :=
  String.mk (List.replicate (2 - jsLength text) '0') ++ text

/-- One run of `updateTimer` at the instant `now`, for a numeric deadline:
`remaining = Math.ceil((lockoutUntil - Date.now()) / 1000)`. -/
def updateTimer (lockoutUntil now : Int) : TimerStep :=
  let remaining : Int := -((now - lockoutUntil) / 1000)
  if remaining > 0 then
    TimerStep.display
      ("Temps restant: " ++ numberToString (remaining / 60) ++ ":" ++
        padStart2 (numberToString (remaining % 60)))
      1000
  else TimerStep.reload

/-! ## Page load -/

/-- The constructor of `AuthManager`, run when a page loads over the given storage area:
`isProcessing` is false, a `SecurityManager` and an `AuthAnalytics` are constructed, and
`init` runs `checkExistingSession` (its two other calls only register listeners). -/
def AuthManager.new (penv : PageEnv) (storage : Storage) : World × Completion Unit :=
  checkExistingSession penv
    (SecurityManager.new (AuthAnalytics.new { initialWorld with storage := storage }))

/-! ## The message box -/

/-- The template literal of `showMessage`, up to the interpolation of `message`. -/
def markupBeforeMessage (type : String) : String :=
  "\n            <div class=\"message-content\">" ++
    "\n                <span class=\"message-icon\">" ++
    (if type = "success" then "✅" else "❌") ++ "</span>" ++
    "\n                <span class=\"message-text\">"

/-- The template literal of `showMessage`, after the interpolation of `message`. -/
def markupAfterMessage : String :=
  "</span>" ++
    "\n                <button class=\"message-close\" " ++
    "onclick=\"this.parentElement.parentElement.remove()\">×</button>" ++
    "\n            </div>" ++
    "\n        "

/-- The markup that `showMessage(message, type)` assigns to `messageDiv.innerHTML`: the
template literal, in which `message` is interpolated as it stands, without escaping. -/
def messageMarkup (m : Message) : String :=
  markupBeforeMessage m.type ++ m.text.toJSString ++ markupAfterMessage

/-- Character data that the HTML parser turns into text as it stands: every character but
`<`, `&`, the carriage return and the null character. -/
def isHtmlPlain (c : Char) : Bool :=
  c != '<' && c != '&' && c.toNat != 13 && c.toNat != 0

/-- The formatting elements known to the model of the parser. -/
def formattingTags : List String := ["b", "i", "u", "em", "strong"]

/-- Whether the characters read between `<` and `>` are the start tag or the end tag of a
formatting element, without attributes. -/
def isFormattingTag (read : List Char) : Bool :=
  formattingTags.contains (String.mk (match read with
    | '/' :: name => name
    | name => name))

/-- Where the reading of a fragment of markup stands: in character data, or inside a tag,
with the characters read since its `<`, last first. -/
inductive MarkupState where
  | data : MarkupState
  | tag (read : List Char) : MarkupState

/-- The text that the browser displays for a fragment of markup assigned through
`innerHTML`, for the fragments made of plain character data and of tags of formatting
elements: the character data is the text, the tags give none.  `none` for every other
fragment, which this model of the platform's parser does not cover. -/
def displayedText : MarkupState → List Char → Option (List Char)
  | MarkupState.data, [] => some []
  | MarkupState.tag _, [] => none
  | MarkupState.data, c :: rest =>
      if c = '<' then displayedText (MarkupState.tag []) rest
      else if isHtmlPlain c then (displayedText MarkupState.data rest).map (fun t => c :: t)
      else none
  | MarkupState.tag read, c :: rest =>
      if c = '>' then
        if isFormattingTag read.reverse then displayedText MarkupState.data rest else none
      else displayedText (MarkupState.tag (c :: read)) rest

/-- The text displayed in the element `message-text` of the message box for a call of
`showMessage`: the text of the interpolated message, read as markup. -/
def shownText (m : Message) : Option String :=
  (displayedText MarkupState.data m.text.toJSString.toList).map String.mk

/-! # Properties -/

/-! ## Correctness of the matcher -/

namespace Regex

theorem nullable_iff (r : Regex) : r.nullable = true ↔ Matches r [] := by
  induction r with
  | never => simp only [nullable]; constructor
             · intro h; cases h
             · intro h; cases h
  | eps => simp only [nullable]; exact ⟨fun _ => Matches.eps, fun _ => trivial⟩
  | cls p => simp only [nullable]; constructor
             · intro h; cases h
             · intro h; cases h
  | seq r s ihr ihs =>
    simp only [nullable, Bool.and_eq_true, ihr, ihs]
    constructor
    · rintro ⟨h1, h2⟩
      exact Matches.seq h1 h2
    · intro h
      generalize hz : ([] : List Char) = z at h
      cases h with
      | seq h1 h2 =>
        obtain ⟨rfl, rfl⟩ := List.append_eq_nil.mp hz.symm
        exact ⟨h1, h2⟩
  | alt r s ihr ihs =>
    simp only [nullable, Bool.or_eq_true, ihr, ihs]
    constructor
    · rintro (h | h)
      · exact Matches.altL h
      · exact Matches.altR h
    · intro h
      cases h with
      | altL h => exact Or.inl h
      | altR h => exact Or.inr h
  | star r _ => simp only [nullable]; exact ⟨fun _ => Matches.starNil, fun _ => trivial⟩

/-- A non-empty match of `star r` starts with a non-empty match of `r`. -/
theorem star_cons_split {r : Regex} {w : List Char} (h : Matches (star r) w) :
    ∀ c s, w = c :: s → ∃ x y, s = x ++ y ∧ Matches r (c :: x) ∧ Matches (star r) y := by
  generalize hq : star r = q at h
  induction h with
  | eps => cases hq
  | cls => cases hq
  | seq => cases hq
  | altL => cases hq
  | altR => cases hq
  | starNil => intro c s hw; cases hw
  | @starCons r0 x y hx hy _ ihy =>
    cases hq
    intro c s hw
    cases x with
    | nil => exact ihy rfl c s hw
    | cons d x =>
      simp only [List.cons_append, List.cons.injEq] at hw
      obtain ⟨rfl, rfl⟩ := hw
      exact ⟨x, y, rfl, hx, hy⟩

theorem deriv_iff (r : Regex) : ∀ (c : Char) (s : List Char),
    Matches (r.deriv c) s ↔ Matches r (c :: s) := by
  induction r with
  | never => intro c s; simp only [deriv]; constructor
             · intro h; cases h
             · intro h; cases h
  | eps => intro c s; simp only [deriv]; constructor
           · intro h; cases h
           · intro h; cases h
  | cls p =>
    intro c s
    simp only [deriv]
    constructor
    · intro h
      by_cases hp : p c = true
      · rw [if_pos hp] at h
        cases h
        exact Matches.cls p c hp
      · rw [if_neg hp] at h
        cases h
    · intro h
      cases h with
      | cls _ _ hp =>
        rw [if_pos hp]
        exact Matches.eps
  | seq r1 r2 ih1 ih2 =>
    intro c s
    have key : Matches (seq r1 r2) (c :: s) ↔
        Matches (seq (r1.deriv c) r2) s ∨ (r1.nullable = true ∧ Matches (r2.deriv c) s) := by
      constructor
      · intro h
        generalize hz : c :: s = z at h
        cases h with
        | @seq _ _ x y h1 h2 =>
          cases x with
          | nil =>
            simp only [List.nil_append] at hz
            subst hz
            exact Or.inr ⟨(nullable_iff r1).mpr h1, (ih2 c s).mpr h2⟩
          | cons d x =>
            simp only [List.cons_append, List.cons.injEq] at hz
            obtain ⟨rfl, rfl⟩ := hz
            exact Or.inl (Matches.seq ((ih1 c x).mpr h1) h2)
      · rintro (h | ⟨hn, h⟩)
        · cases h with
          | @seq _ _ x y h1 h2 =>
            have := Matches.seq ((ih1 c x).mp h1) h2
            simpa using this
        · have := Matches.seq ((nullable_iff r1).mp hn) ((ih2 c s).mp h)
          simpa using this
    rw [key]
    simp only [deriv]
    by_cases hn : r1.nullable = true
    · rw [if_pos hn]
      constructor
      · intro h
        cases h with
        | altL h => exact Or.inl h
        | altR h => exact Or.inr ⟨hn, h⟩
      · rintro (h | ⟨_, h⟩)
        · exact Matches.altL h
        · exact Matches.altR h
    · rw [if_neg hn]
      constructor
      · intro h; exact Or.inl h
      · rintro (h | ⟨h, _⟩)
        · exact h
        · exact absurd h hn
  | alt r1 r2 ih1 ih2 =>
    intro c s
    simp only [deriv]
    constructor
    · intro h
      cases h with
      | altL h => exact Matches.altL ((ih1 c s).mp h)
      | altR h => exact Matches.altR ((ih2 c s).mp h)
    · intro h
      cases h with
      | altL h => exact Matches.altL ((ih1 c s).mpr h)
      | altR h => exact Matches.altR ((ih2 c s).mpr h)
  | star r ih =>
    intro c s
    simp only [deriv]
    constructor
    · intro h
      cases h with
      | @seq _ _ x y h1 h2 =>
        have := Matches.starCons ((ih c x).mp h1) h2
        simpa using this
    · intro h
      obtain ⟨x, y, rfl, hx, hy⟩ := star_cons_split h c s rfl
      exact Matches.seq ((ih c x).mpr hx) hy

/-- The derivative matcher decides the declarative meaning. -/
theorem rmatch_iff (r : Regex) (s : List Char) : r.rmatch s = true ↔ Matches r s := by
  induction s generalizing r with
  | nil => simpa only [rmatch] using nullable_iff r
  | cons c s ih => simp only [rmatch]; rw [ih, deriv_iff]

theorem matches_seq_iff (r t : Regex) (s : List Char) :
    Matches (seq r t) s ↔ ∃ x y, s = x ++ y ∧ Matches r x ∧ Matches t y := by
  constructor
  · intro h
    cases h with
    | @seq _ _ x y h1 h2 => exact ⟨x, y, rfl, h1, h2⟩
  · rintro ⟨x, y, rfl, h1, h2⟩
    exact Matches.seq h1 h2

theorem matches_cls_iff (p : Char → Bool) (s : List Char) :
    Matches (cls p) s ↔ ∃ c, s = [c] ∧ p c = true := by
  constructor
  · intro h
    cases h with
    | cls _ c hp => exact ⟨c, rfl, hp⟩
  · rintro ⟨c, rfl, hp⟩
    exact Matches.cls p c hp

theorem matches_chr_iff (c : Char) (s : List Char) : Matches (chr c) s ↔ s = [c] := by
  unfold chr
  rw [matches_cls_iff]
  constructor
  · rintro ⟨d, rfl, hd⟩
    simp only [beq_iff_eq] at hd
    rw [hd]
  · rintro rfl
    exact ⟨c, rfl, by simp⟩

theorem matches_star_cls_forall {p : Char → Bool} {q : Regex} {s : List Char}
    (h : Matches q s) (hq : q = star (cls p)) : ∀ c ∈ s, p c = true := by
  induction h with
  | eps => cases hq
  | cls => cases hq
  | seq => cases hq
  | altL => cases hq
  | altR => cases hq
  | starNil => intro c hc; cases hc
  | @starCons r0 x y hx _ _ ihy =>
    cases hq
    intro c hc
    rcases List.mem_append.mp hc with hc | hc
    · obtain ⟨d, rfl, hd⟩ := (matches_cls_iff p x).mp hx
      rw [List.mem_singleton.mp hc]
      exact hd
    · exact ihy rfl c hc

theorem matches_star_cls_iff (p : Char → Bool) (s : List Char) :
    Matches (star (cls p)) s ↔ ∀ c ∈ s, p c = true := by
  constructor
  · intro h
    exact matches_star_cls_forall h rfl
  · intro h
    induction s with
    | nil => exact Matches.starNil
    | cons c s ih =>
      have h1 : Matches (cls p) [c] := Matches.cls p c (h c (List.mem_cons_self c s))
      have h2 : Matches (star (cls p)) s := ih (fun d hd => h d (List.mem_cons_of_mem c hd))
      have := Matches.starCons h1 h2
      simpa using this

theorem matches_plus_cls_iff (p : Char → Bool) (s : List Char) :
    Matches (plus (cls p)) s ↔ s ≠ [] ∧ ∀ c ∈ s, p c = true := by
  unfold plus
  rw [matches_seq_iff]
  constructor
  · rintro ⟨x, y, rfl, hx, hy⟩
    obtain ⟨c, rfl, hc⟩ := (matches_cls_iff p x).mp hx
    refine ⟨by simp, ?_⟩
    intro d hd
    rcases List.mem_append.mp hd with hd | hd
    · rw [List.mem_singleton.mp hd]
      exact hc
    · exact (matches_star_cls_iff p y).mp hy d hd
  · rintro ⟨hne, hall⟩
    cases s with
    | nil => exact absurd rfl hne
    | cons c s =>
      refine ⟨[c], s, rfl, Matches.cls p c (hall c (List.mem_cons_self c s)), ?_⟩
      exact (matches_star_cls_iff p s).mpr (fun d hd => hall d (List.mem_cons_of_mem c hd))

end Regex

/-! ## `isValidEmail` -/

/-- The inputs accepted by `emailRegex`: three non-empty runs of `[^\s@]` separated by an
`@` and a `.`. -/
theorem emailRegex_rmatch_iff (s : List Char) :
    emailRegex.rmatch s = true ↔
      ∃ l a b, s = l ++ '@' :: (a ++ '.' :: b) ∧ l ≠ [] ∧ a ≠ [] ∧ b ≠ [] ∧
        (∀ c ∈ l, notSpaceNorAt c = true) ∧ (∀ c ∈ a, notSpaceNorAt c = true) ∧
        (∀ c ∈ b, notSpaceNorAt c = true) := by
  rw [Regex.rmatch_iff]
  unfold emailRegex
  constructor
  · intro h
    obtain ⟨l, r1, rfl, hl, h⟩ := (Regex.matches_seq_iff _ _ _).mp h
    obtain ⟨x, r2, rfl, hx, h⟩ := (Regex.matches_seq_iff _ _ _).mp h
    obtain ⟨a, r3, rfl, ha, h⟩ := (Regex.matches_seq_iff _ _ _).mp h
    obtain ⟨y, b, rfl, hy, hb⟩ := (Regex.matches_seq_iff _ _ _).mp h
    rw [Regex.matches_chr_iff] at hx hy
    subst hx hy
    rw [Regex.matches_plus_cls_iff] at hl ha hb
    exact ⟨l, a, b, by simp, hl.1, ha.1, hb.1, hl.2, ha.2, hb.2⟩
  · rintro ⟨l, a, b, rfl, hl, ha, hb, hl2, ha2, hb2⟩
    have e : l ++ '@' :: (a ++ '.' :: b) = l ++ (['@'] ++ (a ++ (['.'] ++ b))) := by simp
    rw [e]
    refine Regex.Matches.seq ((Regex.matches_plus_cls_iff _ _).mpr ⟨hl, hl2⟩) ?_
    refine Regex.Matches.seq ((Regex.matches_chr_iff _ _).mpr rfl) ?_
    refine Regex.Matches.seq ((Regex.matches_plus_cls_iff _ _).mpr ⟨ha, ha2⟩) ?_
    exact Regex.Matches.seq ((Regex.matches_chr_iff _ _).mpr rfl)
      ((Regex.matches_plus_cls_iff _ _).mpr ⟨hb, hb2⟩)

theorem notSpaceNorAt_iff (c : Char) :
    notSpaceNorAt c = true ↔ isJSWhiteSpace c = false ∧ c ≠ '@' := by
  unfold notSpaceNorAt
  cases h : isJSWhiteSpace c <;> simp

/-- The e-mail validator accepts exactly the strings without white space, with exactly one
`@`, a non-empty part before it and, after it, a `.` with a character on each side. -/
theorem isValidEmail_eq_true_iff (s : String) :
    isValidEmail s = true ↔
      ((∀ c ∈ s.toList, isJSWhiteSpace c = false) ∧ s.toList.count '@' = 1 ∧
        ∃ l d, s.toList = l ++ '@' :: d ∧ l ≠ [] ∧
          ∃ a b, d = a ++ '.' :: b ∧ a ≠ [] ∧ b ≠ []) := by
  unfold isValidEmail Regex.test
  rw [emailRegex_rmatch_iff]
  constructor
  · rintro ⟨l, a, b, hs, hl, ha, hb, hl2, ha2, hb2⟩
    simp only [notSpaceNorAt_iff] at hl2 ha2 hb2
    refine ⟨?_, ?_, l, a ++ '.' :: b, hs, hl, a, b, rfl, ha, hb⟩
    · intro c hc
      rw [hs] at hc
      simp only [List.mem_append, List.mem_cons] at hc
      rcases hc with hc | rfl | hc | rfl | hc
      · exact (hl2 c hc).1
      · decide
      · exact (ha2 c hc).1
      · decide
      · exact (hb2 c hc).1
    · rw [hs]
      have h1 : l.count '@' = 0 := List.count_eq_zero.mpr (fun h => (hl2 _ h).2 rfl)
      have h2 : a.count '@' = 0 := List.count_eq_zero.mpr (fun h => (ha2 _ h).2 rfl)
      have h3 : b.count '@' = 0 := List.count_eq_zero.mpr (fun h => (hb2 _ h).2 rfl)
      have h4 : ('.' == '@') = false := by decide
      simp [List.count_append, List.count_cons, h1, h2, h3, h4]
  · rintro ⟨hws, hcount, l, d, hs, hl, a, b, rfl, ha, hb⟩
    refine ⟨l, a, b, hs, hl, ha, hb, ?_, ?_, ?_⟩
    all_goals
      intro c hc
      rw [notSpaceNorAt_iff]
      refine ⟨hws c (by rw [hs]; simp [hc]), ?_⟩
      rintro rfl
      rw [hs] at hcount
      have h4 : ('.' == '@') = false := by decide
      simp only [List.count_append, List.count_cons, h4, beq_self_eq_true, if_true] at hcount
      have := List.count_pos_iff.mpr hc
      simp at hcount
      omega

/-! ## `validateRegisterForm` -/

theorem truthy_eq_false_iff (v : JSVal) : v.truthy = false ↔ FieldMissing v := by
  cases v with
  | undefined => simp [JSVal.truthy, FieldMissing]
  | null => simp [JSVal.truthy, FieldMissing]
  | str s => simp [JSVal.truthy, FieldMissing]

theorem truthy_eq_true_iff (v : JSVal) : v.truthy = true ↔ ¬ FieldMissing v := by
  rw [← truthy_eq_false_iff]
  cases v.truthy <;> simp

/-- The result of `validateRegisterForm` as a function of the seven conditions. -/
theorem validateRegisterForm_eq (data : RegisterData) :
    validateRegisterForm data =
      if !data.nom.truthy || !data.prenom.truthy then ⟨false, "Le nom complet est requis"⟩
      else if !data.email.truthy then ⟨false, "L'email est requis"⟩
      else if data.email.truthy && !isValidEmailVal data.email then
        ⟨false, "Format d'email invalide"⟩
      else if !data.password.truthy then ⟨false, "Le mot de passe est requis"⟩
      else if data.password.truthy && decide (data.password.length < 6) then
        ⟨false, "Le mot de passe doit contenir au moins 6 caractères"⟩
      else if data.password.strictNe data.confirmPassword then
        ⟨false, "Les mots de passe ne correspondent pas"⟩
      else if !data.filiere.truthy then ⟨false, "La filière est requise"⟩
      else ⟨true, ""⟩ := by
  unfold validateRegisterForm validations
  generalize (!data.nom.truthy || !data.prenom.truthy) = c0
  generalize (!data.email.truthy) = c1
  generalize (data.email.truthy && !isValidEmailVal data.email) = c2
  generalize (!data.password.truthy) = c3
  generalize (data.password.truthy && decide (data.password.length < 6)) = c4
  generalize (data.password.strictNe data.confirmPassword) = c5
  generalize (!data.filiere.truthy) = c6
  cases c0 <;> cases c1 <;> cases c2 <;> cases c3 <;> cases c4 <;> cases c5 <;> cases c6 <;>
    decide

/-! ## Claims on the validators -/

/-- C1: `isValidEmail(s)` is true exactly when `s` has no white space, exactly one `@`, at
least one character before the `@`, and after the `@` a `.` with at least one character
before it and at least one after it.  In particular every `localpart@domain.tld` with three
non-empty parts free of white space and `@` is accepted, and every string without `@`, or
without a dot after the `@`, is rejected. -/
theorem isValidEmail_characterization :
    (∀ s : String, isValidEmail s = true ↔
      ((∀ c ∈ s.toList, isJSWhiteSpace c = false) ∧ s.toList.count '@' = 1 ∧
        ∃ l d, s.toList = l ++ '@' :: d ∧ l ≠ [] ∧
          ∃ a b, d = a ++ '.' :: b ∧ a ≠ [] ∧ b ≠ [])) ∧
    (∀ localpart domain tld : List Char, localpart ≠ [] → domain ≠ [] → tld ≠ [] →
      (∀ c ∈ localpart ++ domain ++ tld, isJSWhiteSpace c = false ∧ c ≠ '@') →
      isValidEmail (String.mk (localpart ++ '@' :: (domain ++ '.' :: tld))) = true) ∧
    (∀ s : String, '@' ∉ s.toList → isValidEmail s = false) ∧
    (∀ s : String, (∀ l d, s.toList = l ++ '@' :: d → '.' ∉ d) → isValidEmail s = false) := by
  refine ⟨isValidEmail_eq_true_iff, ?_, ?_, ?_⟩
  · intro l a b hl ha hb hall
    unfold isValidEmail Regex.test
    rw [emailRegex_rmatch_iff]
    refine ⟨l, a, b, rfl, hl, ha, hb, ?_, ?_, ?_⟩
    · intro c hc
      exact (notSpaceNorAt_iff c).mpr (hall c (by simp [hc]))
    · intro c hc
      exact (notSpaceNorAt_iff c).mpr (hall c (by simp [hc]))
    · intro c hc
      exact (notSpaceNorAt_iff c).mpr (hall c (by simp [hc]))
  · intro s hs
    cases h : isValidEmail s with
    | false => rfl
    | true =>
      obtain ⟨_, _, l, d, hld, _⟩ := (isValidEmail_eq_true_iff s).mp h
      exact absurd (by rw [hld]; simp) hs
  · intro s hs
    cases h : isValidEmail s with
    | false => rfl
    | true =>
      obtain ⟨_, _, l, d, hld, _, a, b, hd, _⟩ := (isValidEmail_eq_true_iff s).mp h
      exact absurd (by rw [hd]; simp) (hs l d hld)

/-- The validator on `etudiant@volzer.edu` (accepted), on a string without `@` and on a
string without a dot after the `@` (both rejected). -/
theorem isValidEmail_characterization_witness :
    isValidEmail "etudiant@volzer.edu" = true ∧ isValidEmail "etudiant.volzer.edu" = false ∧
      isValidEmail "etudiant@volzer" = false :=
  ⟨isValidEmail_characterization.2.1 "etudiant".toList "volzer".toList "edu".toList
      (by decide) (by decide) (by decide) (by decide),
    isValidEmail_characterization.2.2.1 "etudiant.volzer.edu" (by decide),
    (Bool.eq_false_iff).mpr (fun h =>
      absurd ((isValidEmail_characterization.1 "etudiant@volzer").mp h) (by
        rintro ⟨_, _, l, d, hld, _, a, b, hd, _⟩
        have h1 : '.' ∈ "etudiant@volzer".toList := by rw [hld, hd]; simp
        exact absurd h1 (by decide)))⟩

/-- Each condition of the list `validations` holds exactly when the rule of the same rank
fails. -/
theorem condition_iff_specRuleFails (data : RegisterData) :
    ((!data.nom.truthy || !data.prenom.truthy) = true ↔ SpecRuleFails data 0) ∧
    ((!data.email.truthy) = true ↔ SpecRuleFails data 1) ∧
    ((data.email.truthy && !isValidEmailVal data.email) = true ↔ SpecRuleFails data 2) ∧
    ((!data.password.truthy) = true ↔ SpecRuleFails data 3) ∧
    ((data.password.truthy && decide (data.password.length < 6)) = true ↔
      SpecRuleFails data 4) ∧
    (data.password.strictNe data.confirmPassword = true ↔ SpecRuleFails data 5) ∧
    ((!data.filiere.truthy) = true ↔ SpecRuleFails data 6) := by
  refine ⟨?_, ?_, ?_, ?_, ?_, ?_, ?_⟩ <;>
    simp only [SpecRuleFails, Bool.or_eq_true, Bool.and_eq_true, Bool.not_eq_true',
      truthy_eq_false_iff, truthy_eq_true_iff, decide_eq_true_eq, JSVal.strictNe]

/-- No rule fails exactly when the seven conditions are all false. -/
theorem no_rule_fails_iff (data : RegisterData) (c0 c1 c2 c3 c4 c5 c6 : Bool)
    (h0 : c0 = true ↔ SpecRuleFails data 0) (h1 : c1 = true ↔ SpecRuleFails data 1)
    (h2 : c2 = true ↔ SpecRuleFails data 2) (h3 : c3 = true ↔ SpecRuleFails data 3)
    (h4 : c4 = true ↔ SpecRuleFails data 4) (h5 : c5 = true ↔ SpecRuleFails data 5)
    (h6 : c6 = true ↔ SpecRuleFails data 6) :
    (∀ i : Fin 7, ¬ SpecRuleFails data i) ↔
      (c0 = false ∧ c1 = false ∧ c2 = false ∧ c3 = false ∧ c4 = false ∧ c5 = false ∧
        c6 = false) := by
  have off : ∀ (j : Fin 7) (c : Bool), (c = true ↔ SpecRuleFails data j) →
      ¬ SpecRuleFails data j → c = false := by
    intro j c hc hj
    cases c with
    | false => rfl
    | true => exact absurd (hc.mp rfl) hj
  constructor
  · intro h
    exact ⟨off 0 c0 h0 (h 0), off 1 c1 h1 (h 1), off 2 c2 h2 (h 2), off 3 c3 h3 (h 3),
      off 4 c4 h4 (h 4), off 5 c5 h5 (h 5), off 6 c6 h6 (h 6)⟩
  · rintro ⟨e0, e1, e2, e3, e4, e5, e6⟩ i hi
    have clash : ∀ (c : Bool), c = false → c = true → False := by
      intro c hf ht
      rw [hf] at ht
      cases ht
    fin_cases i
    · exact clash c0 e0 (h0.mpr hi)
    · exact clash c1 e1 (h1.mpr hi)
    · exact clash c2 e2 (h2.mpr hi)
    · exact clash c3 e3 (h3.mpr hi)
    · exact clash c4 e4 (h4.mpr hi)
    · exact clash c5 e5 (h5.mpr hi)
    · exact clash c6 e6 (h6.mpr hi)

/-- C2: `validateRegisterForm` returns the message of the first rule that fails, in the
order (1) full name required, (2) e-mail required, (3) e-mail format invalid, (4) password
required, (5) password shorter than 6 characters, (6) password differs from confirmation,
(7) program required, whatever later rules also fail; and it returns `isValid = true` with
an empty message exactly when no rule fails. -/
theorem validateRegisterForm_first_failure (data : RegisterData) :
    (∀ i : Fin 7, SpecRuleFails data i → (∀ j : Fin 7, j < i → ¬ SpecRuleFails data j) →
      validateRegisterForm data = ⟨false, specRuleMessage i⟩) ∧
    (((validateRegisterForm data).isValid = true ∧ (validateRegisterForm data).message = "") ↔
      ∀ i : Fin 7, ¬ SpecRuleFails data i) ∧
    ((validateRegisterForm data).isValid = true ↔ ∀ i : Fin 7, ¬ SpecRuleFails data i) := by
  obtain ⟨h0, h1, h2, h3, h4, h5, h6⟩ := condition_iff_specRuleFails data
  rw [validateRegisterForm_eq]
  generalize (!data.nom.truthy || !data.prenom.truthy) = c0 at h0 ⊢
  generalize (!data.email.truthy) = c1 at h1 ⊢
  generalize (data.email.truthy && !isValidEmailVal data.email) = c2 at h2 ⊢
  generalize (!data.password.truthy) = c3 at h3 ⊢
  generalize (data.password.truthy && decide (data.password.length < 6)) = c4 at h4 ⊢
  generalize (data.password.strictNe data.confirmPassword) = c5 at h5 ⊢
  generalize (!data.filiere.truthy) = c6 at h6 ⊢
  rw [no_rule_fails_iff data c0 c1 c2 c3 c4 c5 c6 h0 h1 h2 h3 h4 h5 h6]
  refine ⟨?_, ?_, ?_⟩
  · intro i hi hlt
    have f : ∀ (j : Fin 7) (c : Bool), (c = true ↔ SpecRuleFails data j) → j < i →
        c = false := by
      intro j c hc hji
      cases c with
      | false => rfl
      | true => exact absurd (hc.mp rfl) (hlt j hji)
    fin_cases i
    · rw [h0.mpr hi]; rfl
    · rw [f 0 c0 h0 (by decide), h1.mpr hi]; rfl
    · rw [f 0 c0 h0 (by decide), f 1 c1 h1 (by decide), h2.mpr hi]; rfl
    · rw [f 0 c0 h0 (by decide), f 1 c1 h1 (by decide), f 2 c2 h2 (by decide), h3.mpr hi]; rfl
    · rw [f 0 c0 h0 (by decide), f 1 c1 h1 (by decide), f 2 c2 h2 (by decide),
        f 3 c3 h3 (by decide), h4.mpr hi]; rfl
    · rw [f 0 c0 h0 (by decide), f 1 c1 h1 (by decide), f 2 c2 h2 (by decide),
        f 3 c3 h3 (by decide), f 4 c4 h4 (by decide), h5.mpr hi]; rfl
    · rw [f 0 c0 h0 (by decide), f 1 c1 h1 (by decide), f 2 c2 h2 (by decide),
        f 3 c3 h3 (by decide), f 4 c4 h4 (by decide), f 5 c5 h5 (by decide), h6.mpr hi]; rfl
  · cases c0 <;> cases c1 <;> cases c2 <;> cases c3 <;> cases c4 <;> cases c5 <;>
      cases c6 <;> decide
  · cases c0 <;> cases c1 <;> cases c2 <;> cases c3 <;> cases c4 <;> cases c5 <;>
      cases c6 <;> decide

/-- A record whose e-mail address is malformed, whose password is too short and differs
from its confirmation, and whose program is missing: the e-mail message is returned. -/
theorem validateRegisterForm_first_failure_witness :
    validateRegisterForm
        { nom := JSVal.str "Awa Diallo", prenom := JSVal.str "Awa",
          email := JSVal.str "awa.diallo", password := JSVal.str "abc",
          confirmPassword := JSVal.str "abd", filiere := JSVal.null,
          telephone := JSVal.undefined, newsletter := false } =
      ⟨false, "Format d'email invalide"⟩ :=
  (validateRegisterForm_first_failure _).1 2 (by decide) (by decide)

/-- C3: when the name fields and a well-formed e-mail address are present, a password of 1
to 5 characters is refused with the message on the 6 characters, whatever the confirmation
and the program; and a password of at least 6 characters, equal to its confirmation, with a
program selected, passes the validation. -/
theorem validateRegisterForm_password_length (data : RegisterData)
    (hnom : data.nom.truthy = true) (hprenom : data.prenom.truthy = true)
    (hemail : data.email.truthy = true) (hformat : isValidEmailVal data.email = true) :
    (1 ≤ data.password.length ∧ data.password.length ≤ 5 →
      validateRegisterForm data =
        ⟨false, "Le mot de passe doit contenir au moins 6 caractères"⟩) ∧
    (6 ≤ data.password.length → data.confirmPassword = data.password →
      data.filiere.truthy = true → validateRegisterForm data = ⟨true, ""⟩) := by
  have hpw : 1 ≤ data.password.length → data.password.truthy = true := by
    intro h
    cases hp : data.password with
    | undefined => rw [hp] at h; simp [JSVal.length] at h
    | null => rw [hp] at h; simp [JSVal.length] at h
    | str s =>
      rw [hp] at h
      simp only [JSVal.truthy, bne_iff_ne, ne_eq]
      rintro rfl
      simp [JSVal.length, jsLength] at h
  rw [validateRegisterForm_eq]
  constructor
  · rintro ⟨h1, h5⟩
    have h6 : data.password.length < 6 := by omega
    simp [hnom, hprenom, hemail, hformat, hpw h1, h6]
  · intro h6 hconf hfil
    have h1 : data.password.truthy = true := hpw (by omega)
    have h7 : ¬ data.password.length < 6 := by omega
    simp [hnom, hprenom, hemail, hformat, h1, h7, hconf, hfil, JSVal.strictNe]

/-- The passwords `abc12` (refused, even with a matching confirmation and a program) and
`abc123` (accepted). -/
theorem validateRegisterForm_password_length_witness :
    validateRegisterForm
        { nom := JSVal.str "Awa Diallo", prenom := JSVal.str "Awa",
          email := JSVal.str "awa@volzer.edu", password := JSVal.str "abc12",
          confirmPassword := JSVal.str "abc12", filiere := JSVal.str "informatique",
          telephone := JSVal.undefined, newsletter := false } =
      ⟨false, "Le mot de passe doit contenir au moins 6 caractères"⟩ ∧
    validateRegisterForm
        { nom := JSVal.str "Awa Diallo", prenom := JSVal.str "Awa",
          email := JSVal.str "awa@volzer.edu", password := JSVal.str "abc123",
          confirmPassword := JSVal.str "abc123", filiere := JSVal.str "informatique",
          telephone := JSVal.undefined, newsletter := false } = ⟨true, ""⟩ :=
  ⟨(validateRegisterForm_password_length _ (by decide) (by decide) (by decide)
      (by decide)).1 (by decide),
    (validateRegisterForm_password_length _ (by decide) (by decide) (by decide)
      (by decide)).2 (by decide) (by decide) (by decide)⟩

/-! ## The lockout policy -/

/-- No scope of `createSecurityOverlay` binds `lockoutUntil`: the overlay is appended and
the method raises a `ReferenceError`. -/
theorem createSecurityOverlay_eq (w : World) (message : Overlay) :
    createSecurityOverlay w message =
      ({ w with overlays := w.overlays ++ [message] },
        Completion.throw (JSError.referenceError "lockoutUntil")) := by
  have h : resolveIdentifier createSecurityOverlayScope "lockoutUntil" =
      Completion.throw (JSError.referenceError "lockoutUntil") := by decide
  unfold createSecurityOverlay
  rw [h]

/-- `checkLockoutStatus` while a deadline is persisted and in the future: the overlay is
appended and the call raises. -/
theorem checkLockoutStatus_pending (w : World) (now d : Int)
    (hd : lockoutDeadline w = some d) (hnow : now < d) :
    ∃ v, w.storage.getItem "auth_lockout_until" = some v ∧
      checkLockoutStatus w now =
        ({ w with overlays := w.overlays ++ [{ lockoutUntil := LockoutArg.stored v,
                                                shownAt := now }] },
          Completion.throw (JSError.referenceError "lockoutUntil")) := by
  unfold lockoutDeadline at hd
  cases hv : w.storage.getItem "auth_lockout_until" with
  | none => rw [hv] at hd; cases hd
  | some v =>
    rw [hv] at hd
    change parseInt v = some d at hd
    refine ⟨v, rfl, ?_⟩
    have hne : (v != "") = true := by
      rw [bne_iff_ne]
      rintro rfl
      have h0 : parseInt "" = none := by decide
      rw [h0] at hd
      cases hd
    unfold checkLockoutStatus
    simp only [hv, hd, hne, hnow, decide_True, Bool.and_self, if_true, showLockoutMessage,
      createSecurityOverlay_eq]

/-- `checkLockoutStatus` when no deadline is persisted, or the deadline is not in the
future: the call returns `false` and changes nothing. -/
theorem checkLockoutStatus_open (w : World) (now : Int)
    (h : ∀ d, lockoutDeadline w = some d → d ≤ now) :
    checkLockoutStatus w now = (w, Completion.normal false) := by
  unfold lockoutDeadline at h
  unfold checkLockoutStatus
  cases hv : w.storage.getItem "auth_lockout_until" with
  | none => rfl
  | some v =>
    rw [hv] at h
    change ∀ d, parseInt v = some d → d ≤ now at h
    cases hp : parseInt v with
    | none => simp [hp]
    | some d =>
      have hle : ¬ now < d := not_lt.mpr (h d hp)
      simp [hp, hle]

/-- C5: from every state, `resetFailedAttempts` leaves `failedAttempts` at 0, removes
`failed_login_attempts` and `auth_lockout_until` from the storage, and a call of
`checkLockoutStatus` that follows returns `false`. -/
theorem resetFailedAttempts_opens (w : World) (now : Int) :
    (resetFailedAttempts w).failedAttempts = 0 ∧
    (resetFailedAttempts w).storage.getItem "failed_login_attempts" = none ∧
    (resetFailedAttempts w).storage.getItem "auth_lockout_until" = none ∧
    checkLockoutStatus (resetFailedAttempts w) now =
      (resetFailedAttempts w, Completion.normal false) := by
  have h1 : (resetFailedAttempts w).storage.getItem "auth_lockout_until" = none := by
    simp [resetFailedAttempts, Storage.getItem, Storage.removeItem]
  refine ⟨rfl, ?_, h1, ?_⟩
  · simp [resetFailedAttempts, Storage.getItem, Storage.removeItem]
  · apply checkLockoutStatus_open
    intro d hd
    unfold lockoutDeadline at hd
    rw [h1] at hd
    cases hd

/-- C7: every call of `recordFailedAttempt` adds exactly 1 to `failedAttempts` and writes
the new count under `failed_login_attempts`; a new count below 5 leaves
`auth_lockout_until` as it was, and a new count of 5 or more writes
`auth_lockout_until` = current time + 900000 ms. -/
theorem recordFailedAttempt_effects (w : World) (now : Int) :
    (recordFailedAttempt w now).1.failedAttempts = w.failedAttempts + 1 ∧
    (recordFailedAttempt w now).1.storage.getItem "failed_login_attempts" =
      some (numberToString (w.failedAttempts + 1)) ∧
    (w.failedAttempts + 1 < 5 →
      (recordFailedAttempt w now).1.storage.getItem "auth_lockout_until" =
        w.storage.getItem "auth_lockout_until") ∧
    (5 ≤ w.failedAttempts + 1 →
      (recordFailedAttempt w now).1.storage.getItem "auth_lockout_until" =
        some (numberToString (now + 900000))) := by
  by_cases h : w.failedAttempts + 1 ≥ maxAttempts
  · have h5 : 5 ≤ w.failedAttempts + 1 := h
    have hlt : ¬ w.failedAttempts + 1 < 5 := by omega
    simp [recordFailedAttempt, h, hlt, lockoutAccount, showLockoutMessage,
      createSecurityOverlay_eq, Storage.getItem, Storage.setItem, lockoutTime]
  · have hlt : w.failedAttempts + 1 < 5 := by
      unfold maxAttempts at h
      omega
    have h5 : ¬ 5 ≤ w.failedAttempts + 1 := by omega
    simp [recordFailedAttempt, h, hlt, h5, Storage.getItem, Storage.setItem]

/-- A state with 4 recorded failures: the fifth is written and sets the deadline; a state
with 1 recorded failure: the second leaves the deadline entry as it was. -/
theorem recordFailedAttempt_effects_witness :
    (recordFailedAttempt { initialWorld with failedAttempts := 4 } 1000).1.storage.getItem
        "auth_lockout_until" = some (numberToString (1000 + 900000)) ∧
    (recordFailedAttempt { initialWorld with failedAttempts := 1 } 1000).1.storage.getItem
        "auth_lockout_until" = initialWorld.storage.getItem "auth_lockout_until" :=
  ⟨(recordFailedAttempt_effects { initialWorld with failedAttempts := 4 } 1000).2.2.2
      (by decide),
    (recordFailedAttempt_effects { initialWorld with failedAttempts := 1 } 1000).2.2.1
      (by decide)⟩

/-- How `recordFailedAttempt` ends: normally below the threshold, and by the
`ReferenceError` of `createSecurityOverlay` once the count reaches 5. -/
theorem recordFailedAttempt_completion (w : World) (now : Int) :
    (recordFailedAttempt w now).2 =
      if w.failedAttempts + 1 ≥ 5 then Completion.throw (JSError.referenceError "lockoutUntil")
      else Completion.normal () := by
  by_cases h : w.failedAttempts + 1 ≥ maxAttempts
  · have h5 : w.failedAttempts + 1 ≥ 5 := h
    simp [recordFailedAttempt, h, h5, lockoutAccount, showLockoutMessage,
      createSecurityOverlay_eq]
  · have h5 : ¬ w.failedAttempts + 1 ≥ 5 := h
    simp [recordFailedAttempt, h, h5]

/-- C4, evaluated at the failing input: a fresh `SecurityManager` over an empty storage
records failures at 1000, 2000, 3000, 4000 and 5000 ms; the deadline 905000 is persisted,
and `checkLockoutStatus` at 6000 ms, before the deadline, raises a `ReferenceError` instead
of returning `true`; at the deadline it returns `false`. -/
theorem checkLockoutStatus_after_five_failures :
    lockoutDeadline (recordFailedAttempts initialWorld [1000, 2000, 3000, 4000, 5000]) =
      some 905000 ∧
    (checkLockoutStatus (recordFailedAttempts initialWorld [1000, 2000, 3000, 4000, 5000])
        6000).2 = Completion.throw (JSError.referenceError "lockoutUntil") ∧
    (checkLockoutStatus (recordFailedAttempts initialWorld [1000, 2000, 3000, 4000, 5000])
        905000).2 = Completion.normal false := by
  decide

/-- C6, evaluated at the failing input: with `auth_lockout_until` = `"1000"` in storage and
the current time 0, `checkLockoutStatus` raises a `ReferenceError` instead of returning
`true`; in no state and at no time does it return `true`.  It changes neither
`failedAttempts` nor the storage. -/
theorem checkLockoutStatus_never_true :
    (checkLockoutStatus
        { initialWorld with storage := Storage.empty.setItem "auth_lockout_until" "1000" }
        0).2 = Completion.throw (JSError.referenceError "lockoutUntil") ∧
    (∀ (w : World) (now : Int), (checkLockoutStatus w now).2 ≠ Completion.normal true) ∧
    (∀ (w : World) (now : Int),
      (checkLockoutStatus w now).1.failedAttempts = w.failedAttempts ∧
      (checkLockoutStatus w now).1.storage = w.storage) := by
  have key : ∀ (w : World) (now : Int),
      (checkLockoutStatus w now).2 ≠ Completion.normal true ∧
      (checkLockoutStatus w now).1.failedAttempts = w.failedAttempts ∧
      (checkLockoutStatus w now).1.storage = w.storage := by
    intro w now
    by_cases h : ∃ d, lockoutDeadline w = some d ∧ now < d
    · obtain ⟨d, hd, hnow⟩ := h
      obtain ⟨v, _, hv⟩ := checkLockoutStatus_pending w now d hd hnow
      rw [hv]
      exact ⟨by simp, rfl, rfl⟩
    · have hopen := checkLockoutStatus_open w now (fun d hd => by
        by_contra hlt
        exact h ⟨d, hd, not_le.mp hlt⟩)
      rw [hopen]
      exact ⟨by simp, rfl, rfl⟩
  exact ⟨by decide, fun w now => (key w now).1, fun w now => (key w now).2⟩

/-! ## The submit handlers -/

/-- C9: when `isProcessing` is true on entry, `handleLogin` and `handleRegister` return
without a network request, without an analytics event, without a change of
`failedAttempts` or of the storage, and `isProcessing` stays true. -/
theorem handlers_return_while_processing (env : Env) (w : World) (formData : FormData)
    (now : Int) (reply : ServerReply) (later : Int) (h : w.isProcessing = true) :
    (handleLogin env w formData now reply later).2 = Completion.normal () ∧
    (handleLogin env w formData now reply later).1.requests = w.requests ∧
    (handleLogin env w formData now reply later).1.events = w.events ∧
    (handleLogin env w formData now reply later).1.failedAttempts = w.failedAttempts ∧
    (handleLogin env w formData now reply later).1.storage = w.storage ∧
    (handleLogin env w formData now reply later).1.isProcessing = true ∧
    (handleRegister env w formData now reply later).2 = Completion.normal () ∧
    (handleRegister env w formData now reply later).1.requests = w.requests ∧
    (handleRegister env w formData now reply later).1.events = w.events ∧
    (handleRegister env w formData now reply later).1.failedAttempts = w.failedAttempts ∧
    (handleRegister env w formData now reply later).1.storage = w.storage ∧
    (handleRegister env w formData now reply later).1.isProcessing = true := by
  have hl : handleLogin env w formData now reply later = (w, Completion.normal ()) := by
    unfold handleLogin
    rw [if_pos h]
  have hr : handleRegister env w formData now reply later = (w, Completion.normal ()) := by
    unfold handleRegister
    rw [if_pos h]
  rw [hl, hr]
  exact ⟨rfl, rfl, rfl, rfl, rfl, h, rfl, rfl, rfl, rfl, rfl, h⟩

/-- A second submission of valid credentials while a first one is in flight: nothing is
sent. -/
theorem handlers_return_while_processing_witness :
    (handleLogin sampleEnv { initialWorld with isProcessing := true }
        (loginForm "awa@volzer.edu" "abc123") 1000
        (ServerReply.result ⟨true, UserVal.null, JSVal.undefined⟩) 2000).1.requests = [] :=
  (handlers_return_while_processing sampleEnv { initialWorld with isProcessing := true }
    (loginForm "awa@volzer.edu" "abc123") 1000
    (ServerReply.result ⟨true, UserVal.null, JSVal.undefined⟩) 2000 rfl).2.1

/-- A submission while a deadline is persisted and in the future sends nothing and leaves
the counter, the storage and the flag `isProcessing` as they were. -/
theorem submit_pending (env : Env) (w : World) (d : Int) (hd : lockoutDeadline w = some d)
    (s : Submission) (hs : s.time < d) :
    (submit env w s).1.requests = w.requests ∧
    (submit env w s).1.failedAttempts = w.failedAttempts ∧
    (submit env w s).1.storage = w.storage := by
  cases s with
  | login formData now reply later =>
    by_cases hp : w.isProcessing = true
    · refine ⟨?_, ?_, ?_⟩ <;> simp only [submit, handleLogin, if_pos hp]
    · obtain ⟨v, _, hv⟩ := checkLockoutStatus_pending w now d hd hs
      refine ⟨?_, ?_, ?_⟩ <;> simp only [submit, handleLogin, if_neg hp, hv]
  | register formData now reply later =>
    by_cases hp : w.isProcessing = true
    · refine ⟨?_, ?_, ?_⟩ <;> simp only [submit, handleRegister, if_pos hp]
    · obtain ⟨v, _, hv⟩ := checkLockoutStatus_pending w now d hd hs
      refine ⟨?_, ?_, ?_⟩ <;> simp only [submit, handleRegister, if_neg hp, hv]

/-- C10: while a lockout deadline is persisted and in the future, every `handleLogin` and
every `handleRegister` ends without a network request, without a recorded failure and
without a session, whatever is submitted; as the storage is left untouched, this lasts for
every later submission made before the deadline. -/
theorem locked_submissions_rejected (env : Env) (w : World) (d : Int)
    (hd : lockoutDeadline w = some d) :
    (∀ (formData : FormData) (now : Int) (reply : ServerReply) (later : Int), now < d →
      (handleLogin env w formData now reply later).1.requests = w.requests ∧
      (handleLogin env w formData now reply later).1.failedAttempts = w.failedAttempts ∧
      (handleLogin env w formData now reply later).1.storage = w.storage) ∧
    (∀ (formData : FormData) (now : Int) (reply : ServerReply) (later : Int), now < d →
      (handleRegister env w formData now reply later).1.requests = w.requests ∧
      (handleRegister env w formData now reply later).1.failedAttempts = w.failedAttempts ∧
      (handleRegister env w formData now reply later).1.storage = w.storage) ∧
    (∀ subs : List Submission, (∀ s ∈ subs, s.time < d) →
      (submitAll env w subs).requests = w.requests ∧
      (submitAll env w subs).failedAttempts = w.failedAttempts ∧
      (submitAll env w subs).storage = w.storage) := by
  refine ⟨?_, ?_, ?_⟩
  · intro formData now reply later hnow
    exact submit_pending env w d hd (Submission.login formData now reply later) hnow
  · intro formData now reply later hnow
    exact submit_pending env w d hd (Submission.register formData now reply later) hnow
  · intro subs
    induction subs generalizing w with
    | nil => intro _; exact ⟨rfl, rfl, rfl⟩
    | cons s rest ih =>
      intro hall
      obtain ⟨h1, h2, h3⟩ := submit_pending env w d hd s (hall s (List.mem_cons_self s rest))
      have hd1 : lockoutDeadline (submit env w s).1 = some d := by
        unfold lockoutDeadline
        rw [h3]
        exact hd
      obtain ⟨k1, k2, k3⟩ := ih (submit env w s).1 hd1
        (fun t ht => hall t (List.mem_cons_of_mem s ht))
      simp only [submitAll]
      exact ⟨k1.trans h1, k2.trans h2, k3.trans h3⟩

/-- With the deadline 905000 persisted, a login at 6000 ms and a registration at 7000 ms,
both answered favourably by the server, send nothing. -/
theorem locked_submissions_rejected_witness :
    (submitAll sampleEnv
        { initialWorld with storage := Storage.empty.setItem "auth_lockout_until" "905000" }
        [Submission.login (loginForm "awa@volzer.edu" "abc123") 6000
            (ServerReply.result ⟨true, UserVal.null, JSVal.undefined⟩) 6500,
          Submission.register (loginForm "awa@volzer.edu" "abc123") 7000
            (ServerReply.result ⟨true, UserVal.null, JSVal.undefined⟩) 7500]).requests = [] :=
  ((locked_submissions_rejected sampleEnv
      { initialWorld with storage := Storage.empty.setItem "auth_lockout_until" "905000" }
      905000 (by decide)).2.2
    [Submission.login (loginForm "awa@volzer.edu" "abc123") 6000
        (ServerReply.result ⟨true, UserVal.null, JSVal.undefined⟩) 6500,
      Submission.register (loginForm "awa@volzer.edu" "abc123") 7000
        (ServerReply.result ⟨true, UserVal.null, JSVal.undefined⟩) 7500]
    (by simp [Submission.time])).1

/-! ## The analytics log -/

theorem lastEntries_length (n : Nat) (l : List AuthEvent) :
    (lastEntries n l).length = min l.length n := by
  unfold lastEntries
  rw [List.length_drop]
  omega

theorem lastEntries_of_length_le (n : Nat) (l : List AuthEvent) (h : l.length ≤ n) :
    lastEntries n l = l := by
  unfold lastEntries
  rw [Nat.sub_eq_zero_of_le h, List.drop_zero]

/-- Truncating before appending does not change the last entries. -/
theorem lastEntries_append (n : Nat) (a b : List AuthEvent) :
    lastEntries n (lastEntries n a ++ b) = lastEntries n (a ++ b) := by
  by_cases h : a.length ≤ n
  · rw [lastEntries_of_length_le n a h]
  · have hlt : n < a.length := not_le.mp h
    have hA : List.drop (a.length - n) (a ++ b) = List.drop (a.length - n) a ++ b :=
      List.drop_append_of_le_length (by omega)
    unfold lastEntries
    rw [← hA, List.drop_drop]
    congr 1
    simp only [List.length_drop, List.length_append]
    omega

/-- What `saveToStorage` keeps and writes. -/
theorem saveToStorage_eq (env : Env) (w : World) :
    saveToStorage env w =
      { w with
        events := lastEntries 50 w.events
        storage := w.storage.setItem "auth_analytics"
          (env.stringifyEvents (lastEntries 50 w.events)) } := by
  unfold saveToStorage
  by_cases h : w.events.length > 50
  · simp only [if_pos h, lastEntries]
  · have hle : w.events.length ≤ 50 := not_lt.mp h
    simp only [if_neg h, lastEntries_of_length_le 50 w.events hle]

/-- The log after consecutive calls of `trackEvent`, from any state whose log holds at
most 50 entries. -/
theorem trackEvents_from (env : Env) (calls : List TrackCall) :
    ∀ w : World, w.events.length ≤ 50 →
      (trackEvents env w calls).events =
        lastEntries 50 (w.events ++ calls.map (TrackCall.event env)) ∧
      (calls ≠ [] →
        (trackEvents env w calls).storage.getItem "auth_analytics" =
          some (env.stringifyEvents
            (lastEntries 50 (w.events ++ calls.map (TrackCall.event env))))) ∧
      (calls = [] → (trackEvents env w calls).storage = w.storage) := by
  induction calls with
  | nil =>
    intro w hw
    refine ⟨?_, fun h => absurd rfl h, fun _ => rfl⟩
    simp only [trackEvents, List.map_nil, List.append_nil]
    exact (lastEntries_of_length_le 50 w.events hw).symm
  | cons c rest ih =>
    intro w hw
    have hstep : trackEvent env w c.now c.eventName c.data =
        { w with
          events := lastEntries 50 (w.events ++ [TrackCall.event env c])
          storage := w.storage.setItem "auth_analytics"
            (env.stringifyEvents (lastEntries 50 (w.events ++ [TrackCall.event env c]))) } := by
      unfold trackEvent
      rw [saveToStorage_eq]
      rfl
    have hlen : (trackEvent env w c.now c.eventName c.data).events.length ≤ 50 := by
      rw [hstep]
      simp only [lastEntries_length]
      omega
    obtain ⟨h1, h2, h3⟩ := ih (trackEvent env w c.now c.eventName c.data) hlen
    have hev : (trackEvent env w c.now c.eventName c.data).events ++
        rest.map (TrackCall.event env) =
        lastEntries 50 (w.events ++ [TrackCall.event env c]) ++
          rest.map (TrackCall.event env) := by
      rw [hstep]
    have hall : lastEntries 50 ((trackEvent env w c.now c.eventName c.data).events ++
        rest.map (TrackCall.event env)) =
        lastEntries 50 (w.events ++ (c :: rest).map (TrackCall.event env)) := by
      rw [hev, lastEntries_append]
      simp
    refine ⟨?_, ?_, fun h => absurd h (List.cons_ne_nil c rest)⟩
    · simp only [trackEvents]
      rw [h1, hall]
    · intro _
      simp only [trackEvents]
      by_cases hr : rest = []
      · rw [h3 hr, hr, hstep]
        simp [Storage.getItem, Storage.setItem]
      · rw [h2 hr, hall]

/-- C8 as stated fails for n = 0: on a page loaded over a storage area that holds the log
of an earlier page load, a fresh `AuthAnalytics` with no call of `trackEvent` has an empty
list in memory, while the log persisted under `auth_analytics` still holds the earlier
entry, not the last 0 tracked events. -/
theorem trackEvents_no_call_keeps_earlier_log :
    (trackEvents sampleEnv (AuthAnalytics.new worldWithEarlierLog) []).events = [] ∧
    (trackEvents sampleEnv (AuthAnalytics.new worldWithEarlierLog) []).storage.getItem
        "auth_analytics" = some "[login_attempt]" ∧
    (trackEvents sampleEnv (AuthAnalytics.new worldWithEarlierLog) []).storage.getItem
        "auth_analytics" ≠
      some (sampleEnv.stringifyEvents
        (lastEntries (min 0 50) (([] : List TrackCall).map (TrackCall.event sampleEnv)))) := by
  decide

/-- C8, amended: after n calls of `trackEvent` on a fresh `AuthAnalytics`, the list in
memory holds exactly the last min(n, 50) tracked events, in the order of the calls, and
never more than 50; for n ≥ 1 the log persisted under `auth_analytics` is the text of that
same list, and for n = 0 the storage is left as it was; 60 calls leave exactly the events
11 to 60. -/
theorem trackEvents_keeps_last_fifty (env : Env) (w : World) (calls : List TrackCall) :
    (trackEvents env (AuthAnalytics.new w) calls).events =
      lastEntries 50 (calls.map (TrackCall.event env)) ∧
    (trackEvents env (AuthAnalytics.new w) calls).events.length = min calls.length 50 ∧
    (trackEvents env (AuthAnalytics.new w) calls).events.length ≤ 50 ∧
    (calls ≠ [] →
      (trackEvents env (AuthAnalytics.new w) calls).storage.getItem "auth_analytics" =
        some (env.stringifyEvents (lastEntries 50 (calls.map (TrackCall.event env))))) ∧
    (calls = [] → (trackEvents env (AuthAnalytics.new w) calls).storage = w.storage) ∧
    (calls.length = 60 →
      (trackEvents env (AuthAnalytics.new w) calls).events =
        (calls.map (TrackCall.event env)).drop 10 ∧
      (trackEvents env (AuthAnalytics.new w) calls).events.length = 50 ∧
      (trackEvents env (AuthAnalytics.new w) calls).storage.getItem "auth_analytics" =
        some (env.stringifyEvents ((calls.map (TrackCall.event env)).drop 10))) := by
  have hnew : (AuthAnalytics.new w).events.length ≤ 50 := by simp [AuthAnalytics.new]
  obtain ⟨h1, h2, h3⟩ := trackEvents_from env calls (AuthAnalytics.new w) hnew
  have e : (AuthAnalytics.new w).events ++ calls.map (TrackCall.event env) =
      calls.map (TrackCall.event env) := by simp [AuthAnalytics.new]
  rw [e] at h1 h2
  have hlen : (trackEvents env (AuthAnalytics.new w) calls).events.length =
      min calls.length 50 := by
    rw [h1, lastEntries_length, List.length_map]
  refine ⟨h1, hlen, by rw [hlen]; omega, h2, fun hc => h3 hc, ?_⟩
  intro h60
  have hne : calls ≠ [] := by
    rintro rfl
    simp at h60
  have hdrop : lastEntries 50 (calls.map (TrackCall.event env)) =
      (calls.map (TrackCall.event env)).drop 10 := by
    unfold lastEntries
    rw [List.length_map, h60]
  refine ⟨by rw [h1, hdrop], by rw [hlen, h60]; rfl, by rw [h2 hne, hdrop]⟩

/-- Two calls on a page that holds the log of an earlier page load: the persisted log is
the text of the two new events. -/
theorem trackEvents_keeps_last_fifty_witness :
    (trackEvents sampleEnv (AuthAnalytics.new worldWithEarlierLog)
        [⟨1000, "login_attempt", []⟩, ⟨2000, "login_error", []⟩]).storage.getItem
        "auth_analytics" =
      some (sampleEnv.stringifyEvents
        (lastEntries 50
          (([⟨1000, "login_attempt", []⟩, ⟨2000, "login_error", []⟩] : List TrackCall).map
            (TrackCall.event sampleEnv)))) :=
  (trackEvents_keeps_last_fifty sampleEnv worldWithEarlierLog
    [⟨1000, "login_attempt", []⟩, ⟨2000, "login_error", []⟩]).2.2.2.1 (by decide)

/-! ## Numbers and their text -/

theorem digitValue_digitChar (d : Nat) (h : d < 10) : digitValue 10 (digitChar d) = some d := by
  interval_cases d <;> decide

theorem digitChar_facts (d : Nat) (h : d < 10) :
    isJSWhiteSpace (digitChar d) = false ∧ digitChar d ≠ '-' ∧ digitChar d ≠ '+' ∧
      (digitChar d = '0' → d = 0) := by
  interval_cases d <;> decide

theorem leadingDigits_nil (radix : Nat) : leadingDigits radix [] = [] := rfl

/-- The digits written by `natDigits` are read back by `leadingDigits`, with their value. -/
theorem leadingDigits_natDigits (fuel : Nat) : ∀ n : Nat, n < fuel →
    ∃ D : List Nat, D ≠ [] ∧ D.foldl (fun acc d => acc * 10 + d) 0 = n ∧
      ∀ rest, leadingDigits 10 (natDigits fuel n ++ rest) = D ++ leadingDigits 10 rest := by
  induction fuel with
  | zero => intro n h; omega
  | succ fuel ih =>
    intro n hn
    by_cases h10 : n < 10
    · refine ⟨[n], by simp, by simp, ?_⟩
      intro rest
      simp [natDigits, h10, leadingDigits, digitValue_digitChar n h10]
    · obtain ⟨D, hD, hval, hread⟩ := ih (n / 10) (by omega)
      refine ⟨D ++ [n % 10], by simp, ?_, ?_⟩
      · rw [List.foldl_append, hval]
        simp only [List.foldl_cons, List.foldl_nil]
        omega
      · intro rest
        simp only [natDigits, h10, if_false, List.append_assoc, hread]
        simp [leadingDigits, digitValue_digitChar (n % 10) (Nat.mod_lt n (by omega))]

/-- The first character written by `natDigits`. -/
theorem natDigits_head (fuel : Nat) : ∀ n : Nat, n < fuel →
    ∃ c tl, natDigits fuel n = c :: tl ∧ isJSWhiteSpace c = false ∧ c ≠ '-' ∧ c ≠ '+' ∧
      (c = '0' → n = 0 ∧ tl = []) := by
  induction fuel with
  | zero => intro n h; omega
  | succ fuel ih =>
    intro n hn
    by_cases h10 : n < 10
    · obtain ⟨h1, h2, h3, h4⟩ := digitChar_facts n h10
      exact ⟨digitChar n, [], by simp [natDigits, h10], h1, h2, h3, fun h => ⟨h4 h, rfl⟩⟩
    · obtain ⟨c, tl, hc, h1, h2, h3, h4⟩ := ih (n / 10) (by omega)
      refine ⟨c, tl ++ [digitChar (n % 10)], by simp [natDigits, h10, hc], h1, h2, h3, ?_⟩
      intro h0
      have := (h4 h0).1
      omega

theorem stripSign_of_digit (c : Char) (tl : List Char) (h1 : c ≠ '-') (h2 : c ≠ '+') :
    stripSign (c :: tl) = (false, c :: tl) := by
  unfold stripSign
  split
  · rename_i heq
    simp only [List.cons.injEq] at heq
    exact absurd heq.1 h1
  · rename_i heq
    simp only [List.cons.injEq] at heq
    exact absurd heq.1 h2
  · rfl

theorem stripRadix_of_digits (c : Char) (tl : List Char) (h : c = '0' → tl = []) :
    stripRadix (c :: tl) = (10, c :: tl) := by
  unfold stripRadix
  split
  · rename_i heq
    simp only [List.cons.injEq] at heq
    have := h heq.1
    rw [this] at heq
    simp at heq
  · rename_i heq
    simp only [List.cons.injEq] at heq
    have := h heq.1
    rw [this] at heq
    simp at heq
  · rfl

/-- The text of a natural number is read back by `parseInt`. -/
theorem parseInt_natDigits (n : Nat) :
    parseInt (String.mk (natDigits (n + 1) n)) = some (Int.ofNat n) := by
  obtain ⟨c, tl, hc, hws, hm, hp, h0⟩ := natDigits_head (n + 1) n (by omega)
  obtain ⟨D, hD, hval, hread⟩ := leadingDigits_natDigits (n + 1) n (by omega)
  have hread0 := hread []
  rw [List.append_nil, leadingDigits_nil, List.append_nil] at hread0
  have hdrop : List.dropWhile isJSWhiteSpace (c :: tl) = c :: tl := by
    simp [List.dropWhile_cons, hws]
  unfold parseInt
  simp only [String.toList, hc, hdrop, stripSign_of_digit c tl hm hp,
    stripRadix_of_digits c tl (fun h => (h0 h).2)]
  rw [← hc, hread0]
  cases D with
  | nil => exact absurd rfl hD
  | cons d D => simp [← hval]

/-- The text of an integer is read back by `parseInt`. -/
theorem parseInt_numberToString (n : Int) : parseInt (numberToString n) = some n := by
  cases n with
  | ofNat n => exact parseInt_natDigits n
  | negSucc n =>
    obtain ⟨c, tl, hc, hws, hm, hp, h0⟩ := natDigits_head (n + 2) (n + 1) (by omega)
    obtain ⟨D, hD, hval, hread⟩ := leadingDigits_natDigits (n + 2) (n + 1) (by omega)
    have hread0 := hread []
    rw [List.append_nil, leadingDigits_nil, List.append_nil] at hread0
    have hdrop : List.dropWhile isJSWhiteSpace ('-' :: c :: tl) = '-' :: c :: tl := by
      have hminus : isJSWhiteSpace '-' = false := by decide
      simp [List.dropWhile_cons, hminus]
    have hsign : stripSign ('-' :: c :: tl) = (true, c :: tl) := rfl
    unfold numberToString parseInt
    simp only [String.toList, hc, hdrop, hsign,
      stripRadix_of_digits c tl (fun h => (h0 h).2)]
    rw [← hc, hread0]
    cases D with
    | nil => exact absurd rfl hD
    | cons d D =>
      simp only [List.isEmpty_cons, hval]
      simp [Int.negSucc_eq]

/-- Once the count reaches 5, the deadline that `checkLockoutStatus` reads back is the
instant of the failure plus 15 minutes. -/
theorem lockoutDeadline_recordFailedAttempt (w : World) (now : Int)
    (h : 5 ≤ w.failedAttempts + 1) :
    lockoutDeadline (recordFailedAttempt w now).1 = some (now + 900000) := by
  have hmax : w.failedAttempts + 1 ≥ maxAttempts := h
  have hst : (recordFailedAttempt w now).1.storage.getItem "auth_lockout_until" =
      some (numberToString (now + 900000)) := by
    simp [recordFailedAttempt, hmax, lockoutAccount, showLockoutMessage,
      createSecurityOverlay_eq, Storage.getItem, Storage.setItem, lockoutTime]
  unfold lockoutDeadline
  rw [hst]
  exact parseInt_numberToString (now + 900000)

theorem recordFailedAttempt_failedAttempts (w : World) (now : Int) :
    (recordFailedAttempt w now).1.failedAttempts = w.failedAttempts + 1 := by
  by_cases h : w.failedAttempts + 1 ≥ maxAttempts
  · simp [recordFailedAttempt, h, lockoutAccount, showLockoutMessage, createSecurityOverlay_eq]
  · simp [recordFailedAttempt, h]

/-- The lockout window after five consecutive failures, from any state with a count of at
least 0: the deadline read back is the instant of the fifth failure plus 15 minutes; before
it `checkLockoutStatus` raises the `ReferenceError` of `createSecurityOverlay`, and from it
on `checkLockoutStatus` returns `false`. -/
theorem lockout_window_after_five_failures (w : World) (t1 t2 t3 t4 t5 : Int)
    (h : 0 ≤ w.failedAttempts) :
    lockoutDeadline (recordFailedAttempts w [t1, t2, t3, t4, t5]) = some (t5 + 900000) ∧
    (∀ t, t < t5 + 900000 →
      (checkLockoutStatus (recordFailedAttempts w [t1, t2, t3, t4, t5]) t).2 =
        Completion.throw (JSError.referenceError "lockoutUntil")) ∧
    (∀ t, t5 + 900000 ≤ t →
      (checkLockoutStatus (recordFailedAttempts w [t1, t2, t3, t4, t5]) t).2 =
        Completion.normal false) := by
  have hd : lockoutDeadline (recordFailedAttempts w [t1, t2, t3, t4, t5]) =
      some (t5 + 900000) := by
    simp only [recordFailedAttempts]
    apply lockoutDeadline_recordFailedAttempt
    simp only [recordFailedAttempt_failedAttempts]
    omega
  refine ⟨hd, ?_, ?_⟩
  · intro t ht
    obtain ⟨v, _, hv⟩ := checkLockoutStatus_pending _ t _ hd ht
    rw [hv]
  · intro t ht
    rw [checkLockoutStatus_open _ t (fun d hd2 => by
      rw [hd] at hd2
      cases hd2
      exact ht)]

/-! ## The handlers past their guards -/

/-- What a call of `trackEvent` changes: the log in memory and its persisted text. -/
theorem trackEvent_eq (env : Env) (w : World) (now : Int) (eventName : String)
    (data : List (String × String)) :
    trackEvent env w now eventName data =
      { w with
        events := lastEntries 50 (w.events ++ [TrackCall.event env ⟨now, eventName, data⟩])
        storage := w.storage.setItem "auth_analytics"
          (env.stringifyEvents
            (lastEntries 50 (w.events ++ [TrackCall.event env ⟨now, eventName, data⟩]))) } := by
  unfold trackEvent
  rw [saveToStorage_eq]
  rfl

/-- With no deadline persisted in the future, `checkLockoutStatus` returns `false` and
changes nothing. -/
theorem checkLockoutStatus_of_not_pending (w : World) (now : Int)
    (h : lockoutPending w now = false) :
    checkLockoutStatus w now = (w, Completion.normal false) := by
  apply checkLockoutStatus_open
  intro d hd
  unfold lockoutPending at h
  rw [hd] at h
  simpa using h

/-- `handleLogin` past its two guards. -/
theorem handleLogin_of_guards_passed (env : Env) (w : World) (formData : FormData)
    (now : Int) (reply : ServerReply) (later : Int)
    (hp : w.isProcessing = false) (hl : lockoutPending w now = false) :
    handleLogin env w formData now reply later =
      match validateLoginForm (trackEvent env (setProcessingState w true) now "login_attempt" [])
          (loginDataOf env formData) with
      | (w4, false) => (setProcessingState w4 false, Completion.normal ())
      | (w4, true) =>
          tryCatchFinally (loginAttempt env w4 (loginDataOf env formData) reply later)
            (fun w5 _ => handleLoginError env w5 later)
            (fun w6 => showLoader (setProcessingState w6 false) false) := by
  unfold handleLogin
  rw [hp, checkLockoutStatus_of_not_pending w now hl]
  rfl

/-- `handleRegister` past its two guards. -/
theorem handleRegister_of_guards_passed (env : Env) (w : World) (formData : FormData)
    (now : Int) (reply : ServerReply) (later : Int)
    (hp : w.isProcessing = false) (hl : lockoutPending w now = false) :
    handleRegister env w formData now reply later =
      if !(validateRegisterForm (processFormData env formData)).isValid then
        (setProcessingState
            (showMessage (trackEvent env (setProcessingState w true) now "register_attempt" [])
              (JSVal.str (validateRegisterForm (processFormData env formData)).message) "error")
            false,
          Completion.normal ())
      else
        tryCatchFinally
          (registerAttempt env (trackEvent env (setProcessingState w true) now
            "register_attempt" []) (processFormData env formData) reply later)
          (fun w4 _ =>
            (trackEvent env
                (showMessage w4 (JSVal.str "❌ Erreur de connexion au serveur") "error")
                later "register_error" [],
              Completion.normal ()))
          (fun w6 => showLoader (setProcessingState w6 false) false) := by
  unfold handleRegister
  rw [hp, checkLockoutStatus_of_not_pending w now hl]
  rfl

/-- `validateLoginForm` on a record that passes the local validation. -/
theorem validateLoginForm_of_valid (w : World) (data : LoginData)
    (h : loginValid data = true) : validateLoginForm w data = (w, true) := by
  unfold loginValid at h
  simp only [Bool.and_eq_true] at h
  obtain ⟨⟨h1, h2⟩, h3⟩ := h
  simp [validateLoginForm, h1, h2, h3]

/-- `validateLoginForm` on a record that fails the local validation: one error message is
shown. -/
theorem validateLoginForm_of_invalid (w : World) (data : LoginData)
    (h : loginValid data = false) :
    ∃ text, validateLoginForm w data = (showMessage w (JSVal.str text) "error", false) := by
  unfold loginValid at h
  unfold validateLoginForm
  by_cases h1 : (!data.email.truthy || !data.password.truthy) = true
  · exact ⟨"Veuillez remplir tous les champs", by rw [if_pos h1]⟩
  · rw [if_neg h1]
    have h2 : (!isValidEmailVal data.email) = true := by
      simp only [Bool.or_eq_true, Bool.not_eq_true', not_or, Bool.not_eq_false] at h1
      simpa [h1.1, h1.2] using h
    exact ⟨"Format d'email invalide", by rw [if_pos h2]⟩

/-! ## Local validation failures -/

/-- C11 as stated fails for a submission made while a request is in flight: with
`isProcessing` true, the login handler returns on its first guard although the e-mail field
is empty: no error message is shown and `isProcessing` is still true when it ends. -/
theorem handleLogin_while_processing_shows_nothing :
    (handleLogin sampleEnv { initialWorld with isProcessing := true }
        (loginForm "" "abc123") 1000 ServerReply.fetchFailed 2000).1.messages = [] ∧
    (handleLogin sampleEnv { initialWorld with isProcessing := true }
        (loginForm "" "abc123") 1000 ServerReply.fetchFailed 2000).1.isProcessing = true := by
  decide

/-- C11, amended: for every submission that passes the `isProcessing` and lockout guards, a
login whose e-mail address (trimmed, lower-cased) is empty, whose password is empty or whose
e-mail address fails `isValidEmail`, and a registration that fails `validateRegisterForm`,
send no request, show one error message, change neither `failedAttempts` nor any storage
entry other than the analytics log, and end with `isProcessing` false. -/
theorem invalid_submissions_stay_local (env : Env) (w : World) (formData : FormData)
    (now : Int) (reply : ServerReply) (later : Int)
    (hp : w.isProcessing = false) (hl : lockoutPending w now = false) :
    (((loginDataOf env formData).email.truthy = false ∨
        (loginDataOf env formData).password.truthy = false ∨
        isValidEmailVal (loginDataOf env formData).email = false) →
      (handleLogin env w formData now reply later).1.requests = w.requests ∧
      (∃ text, (handleLogin env w formData now reply later).1.messages =
        w.messages ++ [{ text := JSVal.str text, type := "error" }]) ∧
      (handleLogin env w formData now reply later).1.failedAttempts = w.failedAttempts ∧
      (∀ key, key ≠ "auth_analytics" →
        (handleLogin env w formData now reply later).1.storage.getItem key =
          w.storage.getItem key) ∧
      (handleLogin env w formData now reply later).1.isProcessing = false) ∧
    ((validateRegisterForm (processFormData env formData)).isValid = false →
      (handleRegister env w formData now reply later).1.requests = w.requests ∧
      (handleRegister env w formData now reply later).1.messages =
        w.messages ++
          [⟨JSVal.str (validateRegisterForm (processFormData env formData)).message, "error"⟩] ∧
      (handleRegister env w formData now reply later).1.failedAttempts = w.failedAttempts ∧
      (∀ key, key ≠ "auth_analytics" →
        (handleRegister env w formData now reply later).1.storage.getItem key =
          w.storage.getItem key) ∧
      (handleRegister env w formData now reply later).1.isProcessing = false) := by
  constructor
  · intro hbad
    have hinv : loginValid (loginDataOf env formData) = false := by
      unfold loginValid
      rcases hbad with h | h | h <;> simp [h]
    obtain ⟨text, htext⟩ := validateLoginForm_of_invalid
      (trackEvent env (setProcessingState w true) now "login_attempt" [])
      (loginDataOf env formData) hinv
    rw [handleLogin_of_guards_passed env w formData now reply later hp hl, htext]
    refine ⟨?_, ⟨text, ?_⟩, ?_, ?_, ?_⟩
    · simp [trackEvent_eq, showMessage, setProcessingState]
    · simp [trackEvent_eq, showMessage, setProcessingState]
    · simp [trackEvent_eq, showMessage, setProcessingState]
    · intro key hkey
      simp [trackEvent_eq, showMessage, setProcessingState, Storage.getItem, Storage.setItem,
        hkey]
    · simp [trackEvent_eq, showMessage, setProcessingState]
  · intro hbad
    rw [handleRegister_of_guards_passed env w formData now reply later hp hl, hbad]
    refine ⟨?_, ?_, ?_, ?_, ?_⟩
    · simp [trackEvent_eq, showMessage, setProcessingState]
    · simp [trackEvent_eq, showMessage, setProcessingState]
    · simp [trackEvent_eq, showMessage, setProcessingState]
    · intro key hkey
      simp [trackEvent_eq, showMessage, setProcessingState, Storage.getItem, Storage.setItem,
        hkey]
    · simp [trackEvent_eq, showMessage, setProcessingState]

/-- A login with an empty e-mail field on a page at rest, whatever the server would
answer: nothing is sent and `isProcessing` is false at the end. -/
theorem invalid_submissions_stay_local_witness :
    (handleLogin sampleEnv initialWorld (loginForm "" "abc123") 1000
        (ServerReply.result ⟨true, UserVal.null, JSVal.undefined⟩) 2000).1.requests = [] ∧
    (handleLogin sampleEnv initialWorld (loginForm "" "abc123") 1000
        (ServerReply.result ⟨true, UserVal.null, JSVal.undefined⟩) 2000).1.isProcessing =
      false :=
  ⟨((invalid_submissions_stay_local sampleEnv initialWorld (loginForm "" "abc123") 1000
      (ServerReply.result ⟨true, UserVal.null, JSVal.undefined⟩) 2000 rfl
      (by decide)).1 (Or.inl (by decide))).1,
    ((invalid_submissions_stay_local sampleEnv initialWorld (loginForm "" "abc123") 1000
      (ServerReply.result ⟨true, UserVal.null, JSVal.undefined⟩) 2000 rfl
      (by decide)).1 (Or.inl (by decide))).2.2.2.2⟩

/-! ## The `finally` phase -/

/-- C12: every `handleLogin` and `handleRegister` that passes the `isProcessing` and lockout
guards ends with `isProcessing` false, and, once the local validation is passed, with the
loader hidden, whatever the server's reply: success, rejection (also the one that brings
the failure count to 5) or transport error.  When the local validation fails the loader is
left as it was. -/
theorem handlers_clear_processing (env : Env) (w : World) (formData : FormData)
    (now : Int) (reply : ServerReply) (later : Int)
    (hp : w.isProcessing = false) (hl : lockoutPending w now = false) :
    (handleLogin env w formData now reply later).1.isProcessing = false ∧
    (loginValid (loginDataOf env formData) = true →
      (handleLogin env w formData now reply later).1.loaderShown = false) ∧
    (loginValid (loginDataOf env formData) = false →
      (handleLogin env w formData now reply later).1.loaderShown = w.loaderShown) ∧
    (handleRegister env w formData now reply later).1.isProcessing = false ∧
    ((validateRegisterForm (processFormData env formData)).isValid = true →
      (handleRegister env w formData now reply later).1.loaderShown = false) ∧
    ((validateRegisterForm (processFormData env formData)).isValid = false →
      (handleRegister env w formData now reply later).1.loaderShown = w.loaderShown) := by
  rw [handleLogin_of_guards_passed env w formData now reply later hp hl,
    handleRegister_of_guards_passed env w formData now reply later hp hl]
  refine ⟨?_, ?_, ?_, ?_, ?_, ?_⟩
  · cases hv : loginValid (loginDataOf env formData) with
    | true => rw [validateLoginForm_of_valid _ _ hv]; rfl
    | false =>
      obtain ⟨text, htext⟩ := validateLoginForm_of_invalid
        (trackEvent env (setProcessingState w true) now "login_attempt" [])
        (loginDataOf env formData) hv
      rw [htext]
      rfl
  · intro hv
    rw [validateLoginForm_of_valid _ _ hv]
    rfl
  · intro hv
    obtain ⟨text, htext⟩ := validateLoginForm_of_invalid
      (trackEvent env (setProcessingState w true) now "login_attempt" [])
      (loginDataOf env formData) hv
    rw [htext]
    simp [trackEvent_eq, showMessage, setProcessingState]
  · cases hv : (validateRegisterForm (processFormData env formData)).isValid with
    | true => rfl
    | false => rfl
  · intro hv
    rw [hv]
    rfl
  · intro hv
    rw [hv]
    simp [trackEvent_eq, showMessage, setProcessingState]

/-- The login rejected by the server that brings the failure count from 4 to 5: the handler
ends with `isProcessing` false and the loader hidden. -/
theorem handlers_clear_processing_witness :
    (handleLogin sampleEnv { initialWorld with failedAttempts := 4 }
        (loginForm "awa@volzer.edu" "abc123") 1000
        (ServerReply.result ⟨false, UserVal.undefined, JSVal.undefined⟩) 2000).1.isProcessing =
      false ∧
    (handleLogin sampleEnv { initialWorld with failedAttempts := 4 }
        (loginForm "awa@volzer.edu" "abc123") 1000
        (ServerReply.result ⟨false, UserVal.undefined, JSVal.undefined⟩) 2000).1.loaderShown =
      false :=
  ⟨(handlers_clear_processing sampleEnv { initialWorld with failedAttempts := 4 }
      (loginForm "awa@volzer.edu" "abc123") 1000
      (ServerReply.result ⟨false, UserVal.undefined, JSVal.undefined⟩) 2000 rfl
      (by decide)).1,
    (handlers_clear_processing sampleEnv { initialWorld with failedAttempts := 4 }
      (loginForm "awa@volzer.edu" "abc123") 1000
      (ServerReply.result ⟨false, UserVal.undefined, JSVal.undefined⟩) 2000 rfl
      (by decide)).2.1 (by decide)⟩

/-! ## Recorded failures -/

/-- `recordFailedAttempt` while the new count is below 5. -/
theorem recordFailedAttempt_below (w : World) (now : Int) (h : w.failedAttempts + 1 < 5) :
    recordFailedAttempt w now =
      ({ w with
          failedAttempts := w.failedAttempts + 1
          storage := w.storage.setItem "failed_login_attempts"
            (numberToString (w.failedAttempts + 1)) },
        Completion.normal ()) := by
  have hmax : ¬ w.failedAttempts + 1 ≥ maxAttempts := by
    unfold maxAttempts
    omega
  unfold recordFailedAttempt
  simp only [hmax, if_false]

/-- `recordFailedAttempt` once the new count reaches 5: the count and the deadline are
written, the overlay is appended, and the call raises. -/
theorem recordFailedAttempt_reached (w : World) (now : Int) (h : 5 ≤ w.failedAttempts + 1) :
    recordFailedAttempt w now =
      ({ w with
          failedAttempts := w.failedAttempts + 1
          storage := (w.storage.setItem "failed_login_attempts"
            (numberToString (w.failedAttempts + 1))).setItem "auth_lockout_until"
              (numberToString (now + lockoutTime))
          overlays := w.overlays ++
            [{ lockoutUntil := LockoutArg.computed (now + lockoutTime), shownAt := now }] },
        Completion.throw (JSError.referenceError "lockoutUntil")) := by
  have hmax : w.failedAttempts + 1 ≥ maxAttempts := h
  unfold recordFailedAttempt
  simp only [hmax, if_true, lockoutAccount, showLockoutMessage, createSecurityOverlay_eq]

/-- `handleLoginFailure` while the new count is below 5: the failure is recorded and
tracked, and the count of attempts left is shown. -/
theorem handleLoginFailure_below (env : Env) (w : World) (data : LoginData) (now : Int)
    (h : w.failedAttempts + 1 < 5) :
    handleLoginFailure env w data now =
      (showMessage
          (trackEvent env
            { w with
              failedAttempts := w.failedAttempts + 1
              storage := w.storage.setItem "failed_login_attempts"
                (numberToString (w.failedAttempts + 1)) }
            now "login_failed" [("email", data.email.toJSString)])
          (JSVal.str ("❌ Identifiants incorrects. " ++
            numberToString (5 - (w.failedAttempts + 1)) ++ " tentatives restantes."))
          "error",
        Completion.normal ()) := by
  have hrem : maxAttempts - (w.failedAttempts + 1) > 0 := by
    unfold maxAttempts
    omega
  unfold handleLoginFailure
  rw [recordFailedAttempt_below w now h]
  simp only [trackEvent_eq, hrem, if_true]
  rfl

/-- `handleLoginFailure` once the new count reaches 5: the error raised by
`recordFailedAttempt` leaves the method before any event is tracked or message shown. -/
theorem handleLoginFailure_reached (env : Env) (w : World) (data : LoginData) (now : Int)
    (h : 5 ≤ w.failedAttempts + 1) :
    handleLoginFailure env w data now =
      ({ w with
          failedAttempts := w.failedAttempts + 1
          storage := (w.storage.setItem "failed_login_attempts"
            (numberToString (w.failedAttempts + 1))).setItem "auth_lockout_until"
              (numberToString (now + lockoutTime))
          overlays := w.overlays ++
            [{ lockoutUntil := LockoutArg.computed (now + lockoutTime), shownAt := now }] },
        Completion.throw (JSError.referenceError "lockoutUntil")) := by
  unfold handleLoginFailure
  rw [recordFailedAttempt_reached w now h]

/-! ## Server rejections -/

/-- C13, evaluated at the failing input: with 4 failures recorded, a login rejected by the
server records the fifth failure, and the message shown is the generic connection error,
not the lockout message: `recordFailedAttempt` raises in `createSecurityOverlay` and the
`catch` of `handleLogin` takes over.  With 3 failures recorded the message states the 1
attempt left. -/
theorem handleLogin_fifth_rejection_message :
    (handleLogin sampleEnv { initialWorld with failedAttempts := 4 }
        (loginForm "awa@volzer.edu" "abc123") 1000
        (ServerReply.result ⟨false, UserVal.undefined, JSVal.undefined⟩) 2000).1.failedAttempts =
      5 ∧
    (handleLogin sampleEnv { initialWorld with failedAttempts := 4 }
        (loginForm "awa@volzer.edu" "abc123") 1000
        (ServerReply.result ⟨false, UserVal.undefined, JSVal.undefined⟩) 2000).1.messages =
      [⟨JSVal.str "❌ Erreur de connexion au serveur", "error"⟩] ∧
    (handleLogin sampleEnv { initialWorld with failedAttempts := 3 }
        (loginForm "awa@volzer.edu" "abc123") 1000
        (ServerReply.result ⟨false, UserVal.undefined, JSVal.undefined⟩) 2000).1.messages =
      [⟨JSVal.str "❌ Identifiants incorrects. 1 tentatives restantes.", "error"⟩] := by
  decide

/-- Plain character data is displayed as it stands. -/
theorem displayedText_plain (l : List Char) (h : l.all isHtmlPlain = true) :
    displayedText MarkupState.data l = some l := by
  induction l with
  | nil => rfl
  | cons c rest ih =>
    simp only [List.all_cons, Bool.and_eq_true] at h
    have hne : c ≠ '<' := by
      intro hc
      rw [hc] at h
      exact absurd h.1 (by decide)
    simp only [displayedText, hne, if_false, h.1, if_true, ih h.2, Option.map_some']

theorem digitChar_plain (d : Nat) (h : d < 10) : isHtmlPlain (digitChar d) = true := by
  interval_cases d <;> decide

theorem natDigits_plain (fuel : Nat) : ∀ n : Nat, (natDigits fuel n).all isHtmlPlain = true := by
  induction fuel with
  | zero => intro n; rfl
  | succ fuel ih =>
    intro n
    by_cases h10 : n < 10
    · simp [natDigits, h10, digitChar_plain n h10]
    · simp only [natDigits, h10, if_false, List.all_append, ih (n / 10), Bool.true_and,
        List.all_cons, List.all_nil, Bool.and_true]
      exact digitChar_plain (n % 10) (Nat.mod_lt n (by omega))

/-- The text of a number is plain character data. -/
theorem numberToString_plain (n : Int) : (numberToString n).toList.all isHtmlPlain = true := by
  cases n with
  | ofNat n => exact natDigits_plain (n + 1) n
  | negSucc n =>
    show ('-' :: natDigits (n + 2) (n + 1)).all isHtmlPlain = true
    simp only [List.all_cons, natDigits_plain (n + 2) (n + 1), Bool.and_true]
    decide

/-- The message on the attempts left is displayed as it is written. -/
theorem shownText_attempts_left (k : Int) :
    shownText ⟨JSVal.str ("❌ Identifiants incorrects. " ++ numberToString k ++
        " tentatives restantes."), "error"⟩ =
      some ("❌ Identifiants incorrects. " ++ numberToString k ++ " tentatives restantes.") := by
  unfold shownText
  rw [displayedText_plain]
  · rfl
  · simp only [JSVal.toJSString, String.toList, String.data_append, List.all_append,
      Bool.and_eq_true]
    exact ⟨⟨by decide, numberToString_plain k⟩, by decide⟩

/-- C17 as stated fails on both handlers.  Login: the server rejects a login with the
message `Compte inconnu`; the text shown is the count of attempts left, not the server's
message.  Registration: the server refuses a registration with the message
`<b>Compte existant</b>`; `showMessage` interpolates it into the markup of the message box,
and the text displayed is `Compte existant`, not the message as it was sent. -/
theorem server_message_not_shown_verbatim :
    (handleLogin sampleEnv initialWorld (loginForm "awa@volzer.edu" "abc123") 1000
        (ServerReply.result ⟨false, UserVal.undefined, JSVal.str "Compte inconnu"⟩)
        2000).1.messages =
      [⟨JSVal.str "❌ Identifiants incorrects. 4 tentatives restantes.", "error"⟩] ∧
    shownText ⟨JSVal.str "❌ Identifiants incorrects. 4 tentatives restantes.", "error"⟩ ≠
      some "Compte inconnu" ∧
    (handleRegister sampleEnv initialWorld
        (registerForm "Awa" "Diallo" "awa@volzer.edu" "abc123" "abc123" "informatique") 1000
        (ServerReply.result ⟨false, UserVal.undefined, JSVal.str "<b>Compte existant</b>"⟩)
        2000).1.messages = [⟨JSVal.str "<b>Compte existant</b>", "error"⟩] ∧
    shownText ⟨JSVal.str "<b>Compte existant</b>", "error"⟩ = some "Compte existant" ∧
    shownText ⟨JSVal.str "<b>Compte existant</b>", "error"⟩ ≠
      some "<b>Compte existant</b>" := by
  decide

/-- C17, amended: for a response with success = false that carries a message, the
registration handler interpolates the server's message, as it stands, into the markup of
the message box, so that the text shown is the server's message verbatim when the message
is plain character data (no `<`, `&`, carriage return or null character), and it leaves
the lockout counter unchanged; the login handler adds 1 to the lockout counter and, while
the new count is below 5, the text shown is the count of attempts left, whatever message
the server sent. -/
theorem server_rejection_messages (env : Env) (w : World) (formData : FormData)
    (now : Int) (r : ApiResult) (later : Int) (text : String)
    (hp : w.isProcessing = false) (hl : lockoutPending w now = false)
    (hs : r.success = false) (hm : r.message = JSVal.str text) :
    (loginValid (loginDataOf env formData) = true →
      (handleLogin env w formData now (ServerReply.result r) later).1.failedAttempts =
        w.failedAttempts + 1 ∧
      (w.failedAttempts + 1 < 5 →
        (handleLogin env w formData now (ServerReply.result r) later).1.messages =
          w.messages ++
            [⟨JSVal.str ("❌ Identifiants incorrects. " ++
                numberToString (5 - (w.failedAttempts + 1)) ++ " tentatives restantes."),
              "error"⟩] ∧
        shownText ⟨JSVal.str ("❌ Identifiants incorrects. " ++
            numberToString (5 - (w.failedAttempts + 1)) ++ " tentatives restantes."),
          "error"⟩ =
          some ("❌ Identifiants incorrects. " ++
            numberToString (5 - (w.failedAttempts + 1)) ++ " tentatives restantes."))) ∧
    ((validateRegisterForm (processFormData env formData)).isValid = true →
      (handleRegister env w formData now (ServerReply.result r) later).1.messages =
        w.messages ++ [⟨JSVal.str text, "error"⟩] ∧
      messageMarkup ⟨JSVal.str text, "error"⟩ =
        markupBeforeMessage "error" ++ text ++ markupAfterMessage ∧
      (text.toList.all isHtmlPlain = true →
        shownText ⟨JSVal.str text, "error"⟩ = some text) ∧
      (handleRegister env w formData now (ServerReply.result r) later).1.failedAttempts =
        w.failedAttempts) := by
  constructor
  · intro hv
    rw [handleLogin_of_guards_passed env w formData now (ServerReply.result r) later hp hl,
      validateLoginForm_of_valid _ _ hv]
    have hfa : (makeRequest (showLoader (trackEvent env (setProcessingState w true) now
        "login_attempt" []) true) "/api/login"
        (RequestBody.login (loginDataOf env formData).email (loginDataOf env formData).password
          (loginDataOf env formData).remember)).failedAttempts = w.failedAttempts := by
      simp [trackEvent_eq, makeRequest, showLoader, setProcessingState]
    by_cases hlt : w.failedAttempts + 1 < 5
    · simp only [tryCatchFinally, loginAttempt, hs, Bool.false_eq_true, if_false]
      rw [handleLoginFailure_below _ _ _ _ (by rw [hfa]; exact hlt)]
      refine ⟨?_, fun _ => ⟨?_, shownText_attempts_left _⟩⟩
      · simp [trackEvent_eq, showMessage, setProcessingState, showLoader, makeRequest]
      · simp [trackEvent_eq, showMessage, setProcessingState, showLoader, makeRequest]
    · simp only [tryCatchFinally, loginAttempt, hs, Bool.false_eq_true, if_false]
      rw [handleLoginFailure_reached _ _ _ _ (by rw [hfa]; omega)]
      refine ⟨?_, fun h => absurd h hlt⟩
      simp [handleLoginError, trackEvent_eq, showMessage, setProcessingState,
        showLoader, makeRequest]
  · intro hv
    rw [handleRegister_of_guards_passed env w formData now (ServerReply.result r) later hp hl,
      hv]
    refine ⟨?_, rfl, ?_, ?_⟩
    · simp [tryCatchFinally, registerAttempt, hs, hm, trackEvent_eq, showMessage,
        setProcessingState, showLoader, makeRequest]
    · intro hplain
      unfold shownText
      rw [show (JSVal.str text).toJSString = text from rfl, displayedText_plain _ hplain]
      rfl
    · simp [tryCatchFinally, registerAttempt, hs, trackEvent_eq, showMessage,
        setProcessingState, showLoader, makeRequest]

/-- A registration refused by the server with the message `Compte existant`: that text is
passed to the message box and displayed as it stands. -/
theorem server_rejection_messages_witness :
    (handleRegister sampleEnv initialWorld
        (registerForm "Awa" "Diallo" "awa@volzer.edu" "abc123" "abc123" "informatique") 1000
        (ServerReply.result ⟨false, UserVal.undefined, JSVal.str "Compte existant"⟩)
        2000).1.messages = [] ++ [⟨JSVal.str "Compte existant", "error"⟩] ∧
    shownText ⟨JSVal.str "Compte existant", "error"⟩ = some "Compte existant" :=
  ⟨((server_rejection_messages sampleEnv initialWorld
      (registerForm "Awa" "Diallo" "awa@volzer.edu" "abc123" "abc123" "informatique") 1000
      ⟨false, UserVal.undefined, JSVal.str "Compte existant"⟩ 2000 "Compte existant" rfl
      (by decide) rfl rfl).2 (by decide)).1,
    ((server_rejection_messages sampleEnv initialWorld
      (registerForm "Awa" "Diallo" "awa@volzer.edu" "abc123" "abc123" "informatique") 1000
      ⟨false, UserVal.undefined, JSVal.str "Compte existant"⟩ 2000 "Compte existant" rfl
      (by decide) rfl rfl).2 (by decide)).2.2.1 (by decide)⟩

/-- C18, evaluated at the failing input: with 4 failures recorded, a well-formed response
with success = false takes the path of the transport errors: the error raised under
`recordFailedAttempt` is caught by `handleLogin`, which tracks `login_error` (and no
`login_failed`) and shows the generic message, after the counter and the deadline have been
written. -/
theorem handleLogin_fifth_rejection_takes_error_path :
    ((handleLogin sampleEnv { initialWorld with failedAttempts := 4 }
        (loginForm "awa@volzer.edu" "abc123") 1000
        (ServerReply.result ⟨false, UserVal.undefined, JSVal.str "Mot de passe incorrect"⟩)
        2000).1.events.map (fun e => e.name)) = ["login_attempt", "login_error"] ∧
    (handleLogin sampleEnv { initialWorld with failedAttempts := 4 }
        (loginForm "awa@volzer.edu" "abc123") 1000
        (ServerReply.result ⟨false, UserVal.undefined, JSVal.str "Mot de passe incorrect"⟩)
        2000).1.messages.map (fun m => m.text) =
      [JSVal.str "❌ Erreur de connexion au serveur"] ∧
    (handleLogin sampleEnv { initialWorld with failedAttempts := 4 }
        (loginForm "awa@volzer.edu" "abc123") 1000
        (ServerReply.result ⟨false, UserVal.undefined, JSVal.str "Mot de passe incorrect"⟩)
        2000).1.storage.getItem "auth_lockout_until" = some "902000" := by
  decide

/-- The entry just tracked is the last of the log. -/
theorem lastEntries_concat_getLast? (l : List AuthEvent) (e : AuthEvent) :
    (lastEntries 50 (l ++ [e])).getLast? = some e := by
  unfold lastEntries
  rw [List.getLast?_drop, if_neg (by simp; omega), List.getLast?_concat]

/-- The path of the transport errors: when `fetch` or `response.json()` rejects, the
generic message is shown, `login_error` is tracked, and the counter and every storage entry
other than the analytics log are left as they were. -/
theorem handleLogin_transport_error (env : Env) (w : World) (formData : FormData)
    (now : Int) (reply : ServerReply) (later : Int)
    (hp : w.isProcessing = false) (hl : lockoutPending w now = false)
    (hv : loginValid (loginDataOf env formData) = true)
    (hr : reply = ServerReply.fetchFailed ∨ reply = ServerReply.invalidBody) :
    (handleLogin env w formData now reply later).1.messages =
      w.messages ++ [⟨JSVal.str "❌ Erreur de connexion au serveur", "error"⟩] ∧
    (handleLogin env w formData now reply later).1.events.getLast? =
      some (TrackCall.event env ⟨later, "login_error", []⟩) ∧
    (handleLogin env w formData now reply later).1.failedAttempts = w.failedAttempts ∧
    (∀ key, key ≠ "auth_analytics" →
      (handleLogin env w formData now reply later).1.storage.getItem key =
        w.storage.getItem key) := by
  have hlast := lastEntries_concat_getLast?
  rw [handleLogin_of_guards_passed env w formData now reply later hp hl,
    validateLoginForm_of_valid _ _ hv]
  rcases hr with rfl | rfl
  · refine ⟨?_, ?_, ?_, ?_⟩
    · simp [tryCatchFinally, loginAttempt, handleLoginError, trackEvent_eq, showMessage,
        setProcessingState, showLoader, makeRequest]
    · simp only [tryCatchFinally, loginAttempt, handleLoginError, trackEvent_eq, showMessage,
        setProcessingState, showLoader, makeRequest]
      exact hlast _ _
    · simp [tryCatchFinally, loginAttempt, handleLoginError, trackEvent_eq, showMessage,
        setProcessingState, showLoader, makeRequest]
    · intro key hkey
      simp [tryCatchFinally, loginAttempt, handleLoginError, trackEvent_eq, showMessage,
        setProcessingState, showLoader, makeRequest, Storage.getItem, Storage.setItem, hkey]
  · refine ⟨?_, ?_, ?_, ?_⟩
    · simp [tryCatchFinally, loginAttempt, handleLoginError, trackEvent_eq, showMessage,
        setProcessingState, showLoader, makeRequest]
    · simp only [tryCatchFinally, loginAttempt, handleLoginError, trackEvent_eq, showMessage,
        setProcessingState, showLoader, makeRequest]
      exact hlast _ _
    · simp [tryCatchFinally, loginAttempt, handleLoginError, trackEvent_eq, showMessage,
        setProcessingState, showLoader, makeRequest]
    · intro key hkey
      simp [tryCatchFinally, loginAttempt, handleLoginError, trackEvent_eq, showMessage,
        setProcessingState, showLoader, makeRequest, Storage.getItem, Storage.setItem, hkey]

/-! ## Successful logins -/

/-- C15, evaluated at the failing input: the storage holds a failure count of 5 and an
elapsed deadline; a login accepted by the server leaves `failedAttempts` at 5 and both
entries in the storage.  `handleLoginSuccess` never touches the counter or these entries:
`resetFailedAttempts` is called by the registration handler only. -/
theorem handleLogin_success_keeps_lockout_state :
    (handleLogin sampleEnv worldAfterLockout (loginForm "awa@volzer.edu" "abc123") 1000
        (ServerReply.result ⟨true, UserVal.record (JSVal.str "awa@volzer.edu") "awa",
          JSVal.undefined⟩) 2000).1.failedAttempts = 5 ∧
    (handleLogin sampleEnv worldAfterLockout (loginForm "awa@volzer.edu" "abc123") 1000
        (ServerReply.result ⟨true, UserVal.record (JSVal.str "awa@volzer.edu") "awa",
          JSVal.undefined⟩) 2000).1.storage.getItem "failed_login_attempts" = some "5" ∧
    (handleLogin sampleEnv worldAfterLockout (loginForm "awa@volzer.edu" "abc123") 1000
        (ServerReply.result ⟨true, UserVal.record (JSVal.str "awa@volzer.edu") "awa",
          JSVal.undefined⟩) 2000).1.storage.getItem "auth_lockout_until" = some "500" ∧
    (handleLogin sampleEnv worldAfterLockout (loginForm "awa@volzer.edu" "abc123") 1000
        (ServerReply.result ⟨true, UserVal.record (JSVal.str "awa@volzer.edu") "awa",
          JSVal.undefined⟩) 2000).1.storage.getItem "user" = some "awa" ∧
    (∀ (env : Env) (w : World) (result : ApiResult) (data : LoginData) (now : Int),
      (handleLoginSuccess env w result data now).1.failedAttempts = w.failedAttempts ∧
      (handleLoginSuccess env w result data now).1.storage.getItem "failed_login_attempts" =
        w.storage.getItem "failed_login_attempts" ∧
      (handleLoginSuccess env w result data now).1.storage.getItem "auth_lockout_until" =
        w.storage.getItem "auth_lockout_until") := by
  refine ⟨by decide, by decide, by decide, by decide, ?_⟩
  intro env w result data now
  unfold handleLoginSuccess saveUserSession
  cases result.user with
  | undefined =>
    simp [trackEvent_eq, showMessage, Storage.getItem, Storage.setItem]
  | null =>
    simp [trackEvent_eq, showMessage, Storage.getItem, Storage.setItem]
  | record email json =>
    cases data.remember <;>
      simp [trackEvent_eq, showMessage, saveUserPreferences, scheduleRedirect,
        Storage.getItem, Storage.setItem]

/-! ## The lockout overlay -/

/-- C19, evaluated: `showLockoutMessage` appends the overlay and then raises a
`ReferenceError`, in every state and for every deadline: `createSecurityOverlay` passes to
`startSecurityTimer` an identifier that it does not bind, so no countdown starts.  So do
the two callers: `recordFailedAttempt` reaching 5, and `checkLockoutStatus` with a deadline
in the future. -/
theorem showLockoutMessage_raises :
    (∀ (w : World) (lockoutUntil : LockoutArg) (now : Int),
      showLockoutMessage w lockoutUntil now =
        ({ w with overlays := w.overlays ++ [{ lockoutUntil := lockoutUntil, shownAt := now }] },
          Completion.throw (JSError.referenceError "lockoutUntil"))) ∧
    (recordFailedAttempt { initialWorld with failedAttempts := 4 } 1000).2 =
      Completion.throw (JSError.referenceError "lockoutUntil") ∧
    (checkLockoutStatus
      { initialWorld with storage := Storage.empty.setItem "auth_lockout_until" "901000" }
      2000).2 = Completion.throw (JSError.referenceError "lockoutUntil") := by
  refine ⟨?_, by decide, by decide⟩
  intro w lockoutUntil now
  unfold showLockoutMessage
  rw [createSecurityOverlay_eq]

/-- The countdown that `startSecurityTimer` would run for a numeric deadline: while some
time is left, the text shows the minutes and the seconds on two digits and the next run is
scheduled 1000 ms later; otherwise the page is reloaded. -/
theorem updateTimer_step (lockoutUntil now : Int) :
    (0 < -((now - lockoutUntil) / 1000) →
      updateTimer lockoutUntil now =
        TimerStep.display
          ("Temps restant: " ++ numberToString (-((now - lockoutUntil) / 1000) / 60) ++ ":" ++
            padStart2 (numberToString (-((now - lockoutUntil) / 1000) % 60)))
          1000) ∧
    (-((now - lockoutUntil) / 1000) ≤ 0 → updateTimer lockoutUntil now = TimerStep.reload) := by
  unfold updateTimer
  constructor
  · intro h
    simp only [gt_iff_lt, h, if_true]
  · intro h
    have h2 : ¬ (-((now - lockoutUntil) / 1000) > 0) := not_lt.mpr h
    simp only [h2, if_false]

/-- 61.5 seconds before the deadline the timer shows `1:02`; at the deadline the page is
reloaded. -/
theorem updateTimer_samples :
    updateTimer 901000 839500 = TimerStep.display "Temps restant: 1:02" 1000 ∧
    updateTimer 901000 901000 = TimerStep.reload := by
  decide

/-! ## The names of the registration form -/

/-- C20, evaluated at the failing input: a registration form whose family-name field `nom`
is empty, or missing, and whose other fields are in order passes `validateRegisterForm`:
`processFormData` builds `nom` from the two fields together, so it holds `Awa`, or
`Awa null`, and the rule on the full name does not fire. -/
theorem validateRegisterForm_accepts_empty_family_name :
    (processFormData sampleEnv
        (registerForm "Awa" "" "awa@volzer.edu" "abc123" "abc123" "informatique")).nom =
      JSVal.str "Awa" ∧
    validateRegisterForm (processFormData sampleEnv
        (registerForm "Awa" "" "awa@volzer.edu" "abc123" "abc123" "informatique")) =
      ⟨true, ""⟩ ∧
    (processFormData sampleEnv
        (registerFormWithoutNom "Awa" "awa@volzer.edu" "abc123" "abc123" "informatique")).nom =
      JSVal.str "Awa null" ∧
    validateRegisterForm (processFormData sampleEnv
        (registerFormWithoutNom "Awa" "awa@volzer.edu" "abc123" "abc123" "informatique")) =
      ⟨true, ""⟩ := by
  decide

/-- The part of the rule that works: a first-name field `prenom` that is missing, or empty
once trimmed, is refused with the message on the full name. -/
theorem validateRegisterForm_requires_prenom (env : Env) (formData : FormData)
    (h : formData "prenom" = none ∨ ∃ v, formData "prenom" = some v ∧ jsTrim v = "") :
    validateRegisterForm (processFormData env formData) =
      ⟨false, "Le nom complet est requis"⟩ := by
  have hp : (processFormData env formData).prenom.truthy = false := by
    rcases h with h | ⟨v, h, hv⟩
    · simp [processFormData, FormData.get, h, optTrim, JSVal.truthy]
    · simp [processFormData, FormData.get, h, optTrim, JSVal.truthy, hv]
  rw [validateRegisterForm_eq]
  simp [hp]

/-! ## The session -/

/-- C14 as stated fails for a response with success = true that carries no user: the text
`undefined` is written under `user`, reading `user.email` raises, the `catch` of
`handleLogin` shows the connection error after the success message, no login time is
written and no redirect is scheduled. -/
theorem handleLogin_success_without_user :
    (handleLogin sampleEnv initialWorld (loginForm "awa@volzer.edu" "abc123") 1000
        (ServerReply.result ⟨true, UserVal.undefined, JSVal.undefined⟩)
        2000).1.storage.getItem "user" = some "undefined" ∧
    (handleLogin sampleEnv initialWorld (loginForm "awa@volzer.edu" "abc123") 1000
        (ServerReply.result ⟨true, UserVal.undefined, JSVal.undefined⟩)
        2000).1.storage.getItem "user_login_time" = none ∧
    (handleLogin sampleEnv initialWorld (loginForm "awa@volzer.edu" "abc123") 1000
        (ServerReply.result ⟨true, UserVal.undefined, JSVal.undefined⟩) 2000).1.messages =
      [⟨JSVal.str "✅ Connexion réussie!", "success"⟩,
        ⟨JSVal.str "❌ Erreur de connexion au serveur", "error"⟩] ∧
    (handleLogin sampleEnv initialWorld (loginForm "awa@volzer.edu" "abc123") 1000
        (ServerReply.result ⟨true, UserVal.undefined, JSVal.undefined⟩) 2000).1.redirects =
      [] := by
  decide

/-- C14, amended: for every login response with success = true that carries a user
record, `handleLogin` writes the serialized user under `user` and the login time under
`user_login_time`, tracks `login_success`, shows the success message and no error message,
and schedules a redirect to the value of the `redirect` query parameter when it is present
and non-empty, and to `/dashboard` otherwise. -/
theorem handleLogin_success_persists_session (env : Env) (w : World) (formData : FormData)
    (now : Int) (r : ApiResult) (later : Int) (email : JSVal) (json : String)
    (hp : w.isProcessing = false) (hl : lockoutPending w now = false)
    (hv : loginValid (loginDataOf env formData) = true)
    (hs : r.success = true) (hu : r.user = UserVal.record email json) :
    (handleLogin env w formData now (ServerReply.result r) later).1.storage.getItem "user" =
      some json ∧
    (handleLogin env w formData now (ServerReply.result r) later).1.storage.getItem
        "user_login_time" = some (numberToString later) ∧
    (handleLogin env w formData now (ServerReply.result r) later).1.events.getLast? =
      some (TrackCall.event env ⟨later, "login_success", []⟩) ∧
    (handleLogin env w formData now (ServerReply.result r) later).1.messages =
      w.messages ++ [⟨JSVal.str "✅ Connexion réussie!", "success"⟩] ∧
    (∀ target, env.redirectParam = some target → target ≠ "" →
      (handleLogin env w formData now (ServerReply.result r) later).1.redirects =
        w.redirects ++ [⟨target, 1000⟩]) ∧
    ((env.redirectParam = none ∨ env.redirectParam = some "") →
      (handleLogin env w formData now (ServerReply.result r) later).1.redirects =
        w.redirects ++ [⟨"/dashboard", 1000⟩]) := by
  rw [handleLogin_of_guards_passed env w formData now (ServerReply.result r) later hp hl,
    validateLoginForm_of_valid _ _ hv]
  simp only [tryCatchFinally, loginAttempt, hs, if_true, handleLoginSuccess, saveUserSession,
    hu]
  cases (loginDataOf env formData).remember
  · refine ⟨?_, ?_, ?_, ?_, ?_, ?_⟩
    · simp [trackEvent_eq, showMessage, setProcessingState, showLoader, makeRequest,
        saveUserPreferences, scheduleRedirect, Storage.getItem, Storage.setItem]
    · simp [trackEvent_eq, showMessage, setProcessingState, showLoader, makeRequest,
        saveUserPreferences, scheduleRedirect, Storage.getItem, Storage.setItem]
    · simp only [trackEvent_eq, showMessage, setProcessingState, showLoader, makeRequest,
        saveUserPreferences, scheduleRedirect, Bool.false_eq_true, if_false]
      exact lastEntries_concat_getLast? _ _
    · simp [trackEvent_eq, showMessage, setProcessingState, showLoader, makeRequest,
        saveUserPreferences, scheduleRedirect]
    · intro target ht hne
      simp [trackEvent_eq, showMessage, setProcessingState, showLoader, makeRequest,
        saveUserPreferences, scheduleRedirect, ht, hne]
    · rintro (ht | ht) <;>
        simp [trackEvent_eq, showMessage, setProcessingState, showLoader, makeRequest,
          saveUserPreferences, scheduleRedirect, ht]
  · refine ⟨?_, ?_, ?_, ?_, ?_, ?_⟩
    · simp [trackEvent_eq, showMessage, setProcessingState, showLoader, makeRequest,
        saveUserPreferences, scheduleRedirect, Storage.getItem, Storage.setItem]
    · simp [trackEvent_eq, showMessage, setProcessingState, showLoader, makeRequest,
        saveUserPreferences, scheduleRedirect, Storage.getItem, Storage.setItem]
    · simp only [trackEvent_eq, showMessage, setProcessingState, showLoader, makeRequest,
        saveUserPreferences, scheduleRedirect, if_true]
      exact lastEntries_concat_getLast? _ _
    · simp [trackEvent_eq, showMessage, setProcessingState, showLoader, makeRequest,
        saveUserPreferences, scheduleRedirect]
    · intro target ht hne
      simp [trackEvent_eq, showMessage, setProcessingState, showLoader, makeRequest,
        saveUserPreferences, scheduleRedirect, ht, hne]
    · rintro (ht | ht) <;>
        simp [trackEvent_eq, showMessage, setProcessingState, showLoader, makeRequest,
          saveUserPreferences, scheduleRedirect, ht]

/-- A login accepted with a user record on a page without `redirect` parameter: the user is
stored and the redirect goes to `/dashboard`. -/
theorem handleLogin_success_persists_session_witness :
    (handleLogin sampleEnv initialWorld (loginForm "awa@volzer.edu" "abc123") 1000
        (ServerReply.result ⟨true, UserVal.record (JSVal.str "awa@volzer.edu") "awa",
          JSVal.undefined⟩) 2000).1.storage.getItem "user" = some "awa" ∧
    (handleLogin sampleEnv initialWorld (loginForm "awa@volzer.edu" "abc123") 1000
        (ServerReply.result ⟨true, UserVal.record (JSVal.str "awa@volzer.edu") "awa",
          JSVal.undefined⟩) 2000).1.redirects = [] ++ [⟨"/dashboard", 1000⟩] :=
  ⟨(handleLogin_success_persists_session sampleEnv initialWorld
      (loginForm "awa@volzer.edu" "abc123") 1000
      ⟨true, UserVal.record (JSVal.str "awa@volzer.edu") "awa", JSVal.undefined⟩ 2000
      (JSVal.str "awa@volzer.edu") "awa" rfl (by decide) (by decide) rfl rfl).1,
    (handleLogin_success_persists_session sampleEnv initialWorld
      (loginForm "awa@volzer.edu" "abc123") 1000
      ⟨true, UserVal.record (JSVal.str "awa@volzer.edu") "awa", JSVal.undefined⟩ 2000
      (JSVal.str "awa@volzer.edu") "awa" rfl (by decide) (by decide) rfl rfl).2.2.2.2.2
      (Or.inl rfl)⟩

/-- A deadline that is pending is a deadline read back from the storage, in the future. -/
theorem lockoutPending_eq_true (w : World) (now : Int) (h : lockoutPending w now = true) :
    ∃ d, lockoutDeadline w = some d ∧ now < d := by
  unfold lockoutPending at h
  cases hd : lockoutDeadline w with
  | none => rw [hd] at h; cases h
  | some d =>
    rw [hd] at h
    exact ⟨d, rfl, by simpa using h⟩

/-- `handleRegister` never writes the entry `user`. -/
theorem handleRegister_keeps_user (env : Env) (w : World) (formData : FormData)
    (now : Int) (reply : ServerReply) (later : Int) :
    (handleRegister env w formData now reply later).1.storage.getItem "user" =
      w.storage.getItem "user" := by
  cases hp : w.isProcessing with
  | true =>
    unfold handleRegister
    rw [if_pos hp]
  | false =>
    cases hl : lockoutPending w now with
    | true =>
      obtain ⟨d, hd, hnow⟩ := lockoutPending_eq_true w now hl
      obtain ⟨v, _, hv⟩ := checkLockoutStatus_pending w now d hd hnow
      unfold handleRegister
      simp only [hp, Bool.false_eq_true, if_false, hv]
    | false =>
      rw [handleRegister_of_guards_passed env w formData now reply later hp hl]
      cases hv : (validateRegisterForm (processFormData env formData)).isValid with
      | false =>
        simp [trackEvent_eq, showMessage, setProcessingState, Storage.getItem,
          Storage.setItem]
      | true =>
        cases reply with
        | fetchFailed =>
          simp [tryCatchFinally, registerAttempt, trackEvent_eq, showMessage,
            setProcessingState, showLoader, makeRequest, Storage.getItem, Storage.setItem]
        | invalidBody =>
          simp [tryCatchFinally, registerAttempt, trackEvent_eq, showMessage,
            setProcessingState, showLoader, makeRequest, Storage.getItem, Storage.setItem]
        | result r =>
          cases hs : r.success <;>
            simp [tryCatchFinally, registerAttempt, hs, trackEvent_eq, showMessage,
              setProcessingState, showLoader, makeRequest, saveUserPreferences,
              resetFailedAttempts, scheduleRedirect, Storage.getItem, Storage.setItem,
              Storage.removeItem]

/-- `handleLogin` writes the entry `user` only after it has sent its request and received a
response with success = true. -/
theorem handleLogin_keeps_user_unless (env : Env) (w : World) (formData : FormData)
    (now : Int) (reply : ServerReply) (later : Int) :
    (handleLogin env w formData now reply later).1.storage.getItem "user" =
        w.storage.getItem "user" ∨
      ∃ r, reply = ServerReply.result r ∧ r.success = true ∧
        (handleLogin env w formData now reply later).1.requests =
          w.requests ++
            [⟨"/api/login", RequestBody.login (loginDataOf env formData).email
              (loginDataOf env formData).password (loginDataOf env formData).remember⟩] := by
  cases hp : w.isProcessing with
  | true =>
    left
    unfold handleLogin
    rw [if_pos hp]
  | false =>
    cases hl : lockoutPending w now with
    | true =>
      left
      obtain ⟨d, hd, hnow⟩ := lockoutPending_eq_true w now hl
      obtain ⟨v, _, hv⟩ := checkLockoutStatus_pending w now d hd hnow
      unfold handleLogin
      simp only [hp, Bool.false_eq_true, if_false, hv]
    | false =>
      rw [handleLogin_of_guards_passed env w formData now reply later hp hl]
      cases hv : loginValid (loginDataOf env formData) with
      | false =>
        left
        obtain ⟨text, htext⟩ := validateLoginForm_of_invalid
          (trackEvent env (setProcessingState w true) now "login_attempt" [])
          (loginDataOf env formData) hv
        rw [htext]
        simp [trackEvent_eq, showMessage, setProcessingState, Storage.getItem,
          Storage.setItem]
      | true =>
        rw [validateLoginForm_of_valid _ _ hv]
        cases reply with
        | fetchFailed =>
          left
          simp [tryCatchFinally, loginAttempt, handleLoginError, trackEvent_eq, showMessage,
            setProcessingState, showLoader, makeRequest, Storage.getItem, Storage.setItem]
        | invalidBody =>
          left
          simp [tryCatchFinally, loginAttempt, handleLoginError, trackEvent_eq, showMessage,
            setProcessingState, showLoader, makeRequest, Storage.getItem, Storage.setItem]
        | result r =>
          cases hs : r.success with
          | true =>
            right
            refine ⟨r, rfl, hs, ?_⟩
            simp only [tryCatchFinally, loginAttempt, hs, if_true, handleLoginSuccess,
              saveUserSession]
            cases r.user with
            | undefined =>
              simp [handleLoginError, trackEvent_eq, showMessage, setProcessingState,
                showLoader, makeRequest]
            | null =>
              simp [handleLoginError, trackEvent_eq, showMessage, setProcessingState,
                showLoader, makeRequest]
            | record email json =>
              cases (loginDataOf env formData).remember <;>
                simp [trackEvent_eq, showMessage, setProcessingState, showLoader,
                  makeRequest, saveUserPreferences, scheduleRedirect]
          | false =>
            left
            have hfa : (makeRequest (showLoader (trackEvent env (setProcessingState w true)
                now "login_attempt" []) true) "/api/login"
                (RequestBody.login (loginDataOf env formData).email
                  (loginDataOf env formData).password
                  (loginDataOf env formData).remember)).failedAttempts = w.failedAttempts := by
              simp [trackEvent_eq, makeRequest, showLoader, setProcessingState]
            simp only [tryCatchFinally, loginAttempt, hs, Bool.false_eq_true, if_false]
            by_cases hlt : w.failedAttempts + 1 < 5
            · rw [handleLoginFailure_below _ _ _ _ (by rw [hfa]; exact hlt)]
              simp [trackEvent_eq, showMessage, setProcessingState, showLoader, makeRequest,
                Storage.getItem, Storage.setItem]
            · rw [handleLoginFailure_reached _ _ _ _ (by rw [hfa]; omega)]
              simp [handleLoginError, trackEvent_eq, showMessage, setProcessingState,
                showLoader, makeRequest, Storage.getItem, Storage.setItem]

/-- An operation that finds no entry `user` and leaves one is a `handleLogin` that sent its
request and received a response with success = true. -/
theorem perform_writes_user (penv : PageEnv) (w : World) (op : Operation)
    (h0 : w.storage.getItem "user" = none)
    (h1 : (perform penv w op).storage.getItem "user" ≠ none) :
    ∃ formData now r later,
      op = Operation.handleLogin formData now (ServerReply.result r) later ∧
      r.success = true ∧
      (handleLogin penv.toEnv w formData now (ServerReply.result r) later).1.requests =
        w.requests ++
          [⟨"/api/login", RequestBody.login (loginDataOf penv.toEnv formData).email
            (loginDataOf penv.toEnv formData).password
            (loginDataOf penv.toEnv formData).remember⟩] := by
  cases op with
  | handleLogin formData now reply later =>
    rcases handleLogin_keeps_user_unless penv.toEnv w formData now reply later with h | h
    · exact absurd (h.trans h0) h1
    · obtain ⟨r, rfl, hs, hreq⟩ := h
      exact ⟨formData, now, r, later, rfl, hs, hreq⟩
  | handleRegister formData now reply later =>
    exact absurd ((handleRegister_keeps_user penv.toEnv w formData now reply later).trans h0) h1
  | logout confirmed now =>
    exfalso
    apply h1
    cases confirmed with
    | false => exact h0
    | true =>
      simp [perform, logout, trackEvent_eq, scheduleRedirect, Storage.getItem,
        Storage.removeItem]
  | checkExistingSession =>
    exfalso
    apply h1
    simp only [perform, checkExistingSession]
    cases getCurrentUser penv w with
    | throw e => exact h0
    | normal user =>
      by_cases hu : (user && shouldRedirectToDashboard penv) = true
      · simp only [hu, if_true, scheduleRedirect]
        exact h0
      · simp only [hu, if_false]
        exact h0
  | getAuthStatus =>
    exfalso
    apply h1
    simp only [perform, getAuthStatus]
    cases getCurrentUser penv w with
    | throw e => exact h0
    | normal user => exact h0

/-- C16: from a storage without `user`, after any sequence of `handleLogin`,
`handleRegister`, `logout`, `checkExistingSession` and `getAuthStatus`, with any inputs and
server replies, the entry `user` is present only if the sequence holds a `handleLogin` that
sent its request and received a response with success = true. -/
theorem session_requires_accepted_login (penv : PageEnv) (ops : List Operation) :
    ∀ w : World, w.storage.getItem "user" = none →
      (performAll penv w ops).storage.getItem "user" ≠ none →
      ∃ pre formData now r later post,
        ops = pre ++ Operation.handleLogin formData now (ServerReply.result r) later :: post ∧
        r.success = true ∧
        (handleLogin penv.toEnv (performAll penv w pre) formData now (ServerReply.result r)
            later).1.requests =
          (performAll penv w pre).requests ++
            [⟨"/api/login", RequestBody.login (loginDataOf penv.toEnv formData).email
              (loginDataOf penv.toEnv formData).password
              (loginDataOf penv.toEnv formData).remember⟩] := by
  induction ops with
  | nil =>
    intro w h0 h1
    exact absurd h0 h1
  | cons op rest ih =>
    intro w h0 h1
    by_cases hstep : (perform penv w op).storage.getItem "user" = none
    · obtain ⟨pre, formData, now, r, later, post, hops, hs, hreq⟩ :=
        ih (perform penv w op) hstep h1
      refine ⟨op :: pre, formData, now, r, later, post, ?_, hs, hreq⟩
      rw [hops]
      rfl
    · obtain ⟨formData, now, r, later, hop, hs, hreq⟩ := perform_writes_user penv w op h0 hstep
      exact ⟨[], formData, now, r, later, rest, by rw [hop]; rfl, hs, hreq⟩

/-- A page that checks the session, logs in with success and reads the status: the entry
`user` is there, and the sequence holds the accepted login. -/
theorem session_requires_accepted_login_witness :
    ∃ pre formData now r later post,
      [Operation.checkExistingSession,
        Operation.handleLogin (loginForm "awa@volzer.edu" "abc123") 1000
          (ServerReply.result ⟨true, UserVal.record (JSVal.str "awa@volzer.edu") "awa",
            JSVal.undefined⟩) 2000,
        Operation.getAuthStatus] =
        pre ++ Operation.handleLogin formData now (ServerReply.result r) later :: post ∧
      r.success = true ∧
      (handleLogin samplePageEnv.toEnv (performAll samplePageEnv initialWorld pre) formData now
          (ServerReply.result r) later).1.requests =
        (performAll samplePageEnv initialWorld pre).requests ++
          [⟨"/api/login", RequestBody.login (loginDataOf samplePageEnv.toEnv formData).email
            (loginDataOf samplePageEnv.toEnv formData).password
            (loginDataOf samplePageEnv.toEnv formData).remember⟩] :=
  session_requires_accepted_login samplePageEnv
    [Operation.checkExistingSession,
      Operation.handleLogin (loginForm "awa@volzer.edu" "abc123") 1000
        (ServerReply.result ⟨true, UserVal.record (JSVal.str "awa@volzer.edu") "awa",
          JSVal.undefined⟩) 2000,
      Operation.getAuthStatus]
    initialWorld rfl (by decide)

/-! ## Page load -/

/-- What a page load sets: the storage is kept, `isProcessing` is false, the log in memory is
empty, and `failedAttempts` is read back from `failed_login_attempts`. -/
theorem AuthManager_new_fields (penv : PageEnv) (storage : Storage) :
    (AuthManager.new penv storage).1.storage = storage ∧
    (AuthManager.new penv storage).1.isProcessing = false ∧
    (AuthManager.new penv storage).1.events = [] ∧
    (AuthManager.new penv storage).1.failedAttempts =
      (match parseIntItem (storage.getItem "failed_login_attempts") with
        | some n => if n = 0 then 0 else n
        | none => 0) := by
  unfold AuthManager.new checkExistingSession
  cases getCurrentUser penv
      (SecurityManager.new (AuthAnalytics.new { initialWorld with storage := storage })) with
  | throw e => exact ⟨rfl, rfl, rfl, rfl⟩
  | normal user =>
    by_cases hu : (user && shouldRedirectToDashboard penv) = true
    · simp only [hu, if_true]
      exact ⟨rfl, rfl, rfl, rfl⟩
    · simp only [hu, if_false]
      exact ⟨rfl, rfl, rfl, rfl⟩

/-- A count written by `recordFailedAttempt` is read back by the next page load. -/
theorem AuthManager_new_reads_count (penv : PageEnv) (storage : Storage) (n : Int)
    (h : storage.getItem "failed_login_attempts" = some (numberToString n)) :
    (AuthManager.new penv storage).1.failedAttempts = n := by
  rw [(AuthManager_new_fields penv storage).2.2.2, h]
  simp only [parseIntItem, parseInt_numberToString]
  by_cases h0 : n = 0
  · simp [h0]
  · simp [h0]

/-! ## After a lockout -/

/-- The state in which a lockout is entered: the count, its persisted text and the deadline
read back. -/
theorem lockout_entered (w : World) (t : Int) (h : 5 ≤ w.failedAttempts + 1) :
    (recordFailedAttempt w t).1.failedAttempts = w.failedAttempts + 1 ∧
    (recordFailedAttempt w t).1.storage.getItem "failed_login_attempts" =
      some (numberToString (w.failedAttempts + 1)) ∧
    lockoutDeadline (recordFailedAttempt w t).1 = some (t + 900000) := by
  refine ⟨recordFailedAttempt_failedAttempts w t, ?_, lockoutDeadline_recordFailedAttempt w t h⟩
  rw [recordFailedAttempt_reached w t h]
  simp [Storage.getItem, Storage.setItem]

/-- A deadline that has elapsed is not pending. -/
theorem lockoutPending_of_elapsed (w : World) (now d : Int) (hd : lockoutDeadline w = some d)
    (h : d ≤ now) : lockoutPending w now = false := by
  unfold lockoutPending
  rw [hd]
  simpa using h

/-- C21: the failure counter survives the expiry of a lockout.  Once a lockout is entered
(a `recordFailedAttempt` at the instant `t` that brings the count to 5 or more) and its
deadline has elapsed, without `resetFailedAttempts`, the count is still at least 5, also
after a page reload, whose constructor reads it back from `failed_login_attempts`; attempts
are accepted again, and a single further `recordFailedAttempt`, called directly or by
`handleLogin` on a login that the server rejects, persists a new deadline of the current
time + 15 minutes. -/
theorem failure_count_survives_lockout (penv : PageEnv) (w : World) (t now : Int)
    (h : 5 ≤ w.failedAttempts + 1) (helapsed : t + 900000 ≤ now) :
    5 ≤ (recordFailedAttempt w t).1.failedAttempts ∧
    (AuthManager.new penv (recordFailedAttempt w t).1.storage).1.failedAttempts =
      (recordFailedAttempt w t).1.failedAttempts ∧
    checkLockoutStatus (recordFailedAttempt w t).1 now =
      ((recordFailedAttempt w t).1, Completion.normal false) ∧
    checkLockoutStatus (AuthManager.new penv (recordFailedAttempt w t).1.storage).1 now =
      ((AuthManager.new penv (recordFailedAttempt w t).1.storage).1, Completion.normal false) ∧
    (recordFailedAttempt (recordFailedAttempt w t).1 now).1.storage.getItem
        "auth_lockout_until" = some (numberToString (now + 900000)) ∧
    lockoutDeadline (recordFailedAttempt (recordFailedAttempt w t).1 now).1 =
      some (now + 900000) ∧
    (recordFailedAttempt (AuthManager.new penv (recordFailedAttempt w t).1.storage).1
        now).1.storage.getItem "auth_lockout_until" = some (numberToString (now + 900000)) ∧
    lockoutDeadline
        (recordFailedAttempt (AuthManager.new penv (recordFailedAttempt w t).1.storage).1
          now).1 = some (now + 900000) ∧
    (∀ (formData : FormData) (r : ApiResult) (later : Int),
      loginValid (loginDataOf penv.toEnv formData) = true → r.success = false →
      lockoutDeadline
          (handleLogin penv.toEnv (AuthManager.new penv (recordFailedAttempt w t).1.storage).1
            formData now (ServerReply.result r) later).1 = some (later + 900000)) := by
  obtain ⟨hcount, htext, hdead⟩ := lockout_entered w t h
  obtain ⟨hst, hproc, _, _⟩ := AuthManager_new_fields penv (recordFailedAttempt w t).1.storage
  have hre : (AuthManager.new penv (recordFailedAttempt w t).1.storage).1.failedAttempts =
      w.failedAttempts + 1 := AuthManager_new_reads_count penv _ _ htext
  have hdead2 : lockoutDeadline (AuthManager.new penv (recordFailedAttempt w t).1.storage).1 =
      some (t + 900000) := by
    unfold lockoutDeadline
    rw [hst]
    exact hdead
  have h5 : 5 ≤ (recordFailedAttempt w t).1.failedAttempts + 1 := by
    rw [hcount]
    omega
  have h5re : 5 ≤ (AuthManager.new penv (recordFailedAttempt w t).1.storage).1.failedAttempts
      + 1 := by
    rw [hre]
    omega
  have hl2 := lockoutPending_of_elapsed _ now _ hdead2 helapsed
  have hstore : ∀ (v : World) (u : Int), 5 ≤ v.failedAttempts + 1 →
      (recordFailedAttempt v u).1.storage.getItem "auth_lockout_until" =
        some (numberToString (u + 900000)) := by
    intro v u hv
    rw [recordFailedAttempt_reached v u hv]
    simp [Storage.getItem, Storage.setItem, lockoutTime]
  refine ⟨by rw [hcount]; omega, by rw [hre, hcount], ?_, ?_, hstore _ now h5,
    lockoutDeadline_recordFailedAttempt _ now h5, hstore _ now h5re,
    lockoutDeadline_recordFailedAttempt _ now h5re, ?_⟩
  · exact checkLockoutStatus_of_not_pending _ now
      (lockoutPending_of_elapsed _ now _ hdead helapsed)
  · exact checkLockoutStatus_of_not_pending _ now hl2
  · intro formData r later hv hs
    have hfa : (makeRequest (showLoader (trackEvent penv.toEnv
        (setProcessingState (AuthManager.new penv (recordFailedAttempt w t).1.storage).1 true)
        now "login_attempt" []) true) "/api/login"
        (RequestBody.login (loginDataOf penv.toEnv formData).email
          (loginDataOf penv.toEnv formData).password
          (loginDataOf penv.toEnv formData).remember)).failedAttempts =
        (AuthManager.new penv (recordFailedAttempt w t).1.storage).1.failedAttempts := by
      simp [trackEvent_eq, makeRequest, showLoader, setProcessingState]
    rw [handleLogin_of_guards_passed penv.toEnv _ formData now (ServerReply.result r) later
      hproc hl2, validateLoginForm_of_valid _ _ hv]
    simp only [tryCatchFinally, loginAttempt, hs, Bool.false_eq_true, if_false]
    rw [handleLoginFailure_reached _ _ _ _ (by rw [hfa]; exact h5re)]
    unfold lockoutDeadline
    simp only [handleLoginError, trackEvent_eq, showMessage, setProcessingState, showLoader,
      makeRequest, Storage.getItem, Storage.setItem, lockoutTime]
    simp only [show ("auth_lockout_until" = "auth_analytics") = False from by decide,
      if_false, if_true]
    exact parseInt_numberToString (later + 15 * 60 * 1000)

/-- Four failures recorded, the fifth at 1000 ms enters the lockout; at 901000 ms the
deadline has elapsed; after a page reload one more failure sets the deadline 1801000. -/
theorem failure_count_survives_lockout_witness :
    (AuthManager.new samplePageEnv
        (recordFailedAttempt { initialWorld with failedAttempts := 4 } 1000).1.storage
      ).1.failedAttempts =
      (recordFailedAttempt { initialWorld with failedAttempts := 4 } 1000).1.failedAttempts ∧
    lockoutDeadline
        (recordFailedAttempt
          (AuthManager.new samplePageEnv
            (recordFailedAttempt { initialWorld with failedAttempts := 4 } 1000).1.storage).1
          901000).1 = some (901000 + 900000) :=
  ⟨(failure_count_survives_lockout samplePageEnv { initialWorld with failedAttempts := 4 }
      1000 901000 (by decide) (by decide)).2.1,
    (failure_count_survives_lockout samplePageEnv { initialWorld with failedAttempts := 4 }
      1000 901000 (by decide) (by decide)).2.2.2.2.2.2.2.1⟩

/-! ## A fresh analytics recorder -/

/-- C22: a newly constructed `AuthAnalytics` never reads the persisted log: its list is
empty and the storage is untouched, whatever `auth_analytics` holds; after the first
`trackEvent` the list in memory and the persisted log hold exactly that one event, so the
entries of an earlier page load are overwritten, not appended to. -/
theorem fresh_analytics_discards_persisted_log :
    (∀ w : World, (AuthAnalytics.new w).events = [] ∧ (AuthAnalytics.new w).storage = w.storage) ∧
    (∀ (env : Env) (w : World) (now : Int) (eventName : String) (data : List (String × String)),
      (trackEvent env (AuthAnalytics.new w) now eventName data).events =
        [TrackCall.event env ⟨now, eventName, data⟩] ∧
      (trackEvent env (AuthAnalytics.new w) now eventName data).storage.getItem
          "auth_analytics" =
        some (env.stringifyEvents [TrackCall.event env ⟨now, eventName, data⟩])) ∧
    worldWithEarlierLog.storage.getItem "auth_analytics" = some "[login_attempt]" ∧
    (trackEvent sampleEnv (AuthAnalytics.new worldWithEarlierLog) 1000 "register_attempt"
        []).storage.getItem "auth_analytics" = some "[register_attempt]" := by
  refine ⟨fun w => ⟨rfl, rfl⟩, ?_, by decide, by decide⟩
  intro env w now eventName data
  have hone : lastEntries 50 ((AuthAnalytics.new w).events ++
      [TrackCall.event env ⟨now, eventName, data⟩]) =
      [TrackCall.event env ⟨now, eventName, data⟩] := by
    apply lastEntries_of_length_le
    simp [AuthAnalytics.new]
  rw [trackEvent_eq, hone]
  constructor
  · rfl
  · simp [Storage.getItem, Storage.setItem]

end VolzerCampus
